import Mathlib

/-!
Verification development for the gccrs compiler middle-end sample
(gcc/rust/backend/rust-compile-context.h and the type-check expression
visitor it ships with).  The C++ classes are shallowly embedded as Lean
definitions: the lowering Context becomes a structure of association
lists and stacks, the TyTy type objects become an inductive type, and
the visitors become recursive functions.  C++ undefined behaviour
(calling back() or pop_back() on an empty std::vector, dereferencing a
null pointer, indexing an empty std::vector) is modelled as an explicit
crash outcome; rust_assert and gcc_unreachable failures and
rust_fatal_error are modelled as explicit fatal outcomes.
-/

/-- HirId is the opaque IR node identity (a process-unique integer). -/
abbrev HirId := Nat

/-- Generic first-match association-list lookup.  std::map find is
modelled observationally: insert conses a fresh entry in front, so the
first match is the most recently inserted binding for a key. -/
def lookupAssoc {β : Type} : List (Nat × β) → Nat → Option β
  | [], _ => none
  | (k, v) :: rest, id => if k = id then some v else lookupAssoc rest id

/-- Backend statement handle (opaque). -/
abbrev Bstatement := Nat

/-- Backend block handle (opaque). -/
abbrev Bblock := Nat

/-- Backend variable handle (opaque). -/
abbrev Bvariable := Nat

/-- Backend function handle (opaque). -/
abbrev Bfunction := Nat

mutual
/-- Backend type terms.  Modelled from the spec: the code-emission
backend is external, so its type constructors (integer_type,
array_type) are modelled as free term constructors; types obtained from
the pre-registered cache are opaque named handles. -/
inductive Btype : Type where
  | named (n : Nat)
  | integerType (isUnsigned : Bool) (bits : Nat)
  | arrayType (element : Btype) (length : Bexpression)

/-- Backend expression terms.  Modelled from the spec: the backend
constructor integer_constant_expression is a free term constructor. -/
inductive Bexpression : Type where
  | intConst (ty : Btype) (value : Nat)
  | opaqueExpr (n : Nat)
end

deriving instance DecidableEq for Btype
deriving instance DecidableEq for Bexpression

/-- fncontext pairs the current function with its return address slot. -/
structure fncontext where
  fndecl : Bfunction
  ret_addr : Bvariable
deriving DecidableEq

/-- The lowering Context of Rust::Compile.  std::vector stacks
(push_back at the end, back() reads the end) are modelled as Lean lists
with the vector end at the list head; std::map tables are modelled as
association lists with first-match lookup. -/
structure Context where
  fn_stack : List fncontext
  compiled_var_decls : List (HirId × Bvariable)
  compiled_type_map : List (HirId × Btype)
  compiled_fn_map : List (HirId × Bfunction)
  compiled_consts : List (HirId × Bexpression)
  statements : List (List Bstatement)
  scope_stack : List Bblock
deriving DecidableEq

/-- lookup_compiled_types: find in compiled_type_map; returning none
models the C++ function returning false without writing through the
caller's out pointer. -/
def Context.lookup_compiled_types (c : Context) (id : HirId) : Option Btype :=
  lookupAssoc c.compiled_type_map id

/-- insert_compiled_type: unconditional upsert into compiled_type_map. -/
def Context.insert_compiled_type (c : Context) (id : HirId) (t : Btype) : Context :=
  { c with compiled_type_map := (id, t) :: c.compiled_type_map }

/-- insert_var_decl: unconditional upsert into compiled_var_decls. -/
def Context.insert_var_decl (c : Context) (id : HirId) (decl : Bvariable) : Context :=
  { c with compiled_var_decls := (id, decl) :: c.compiled_var_decls }

/-- lookup_var_decl: find in compiled_var_decls. -/
def Context.lookup_var_decl (c : Context) (id : HirId) : Option Bvariable :=
  lookupAssoc c.compiled_var_decls id

/-- insert_function_decl: unconditional upsert into compiled_fn_map. -/
def Context.insert_function_decl (c : Context) (id : HirId) (fn : Bfunction) : Context :=
  { c with compiled_fn_map := (id, fn) :: c.compiled_fn_map }

/-- lookup_function_decl: find in compiled_fn_map. -/
def Context.lookup_function_decl (c : Context) (id : HirId) : Option Bfunction :=
  lookupAssoc c.compiled_fn_map id

/-- insert_const_decl: unconditional upsert into compiled_consts. -/
def Context.insert_const_decl (c : Context) (id : HirId) (e : Bexpression) : Context :=
  { c with compiled_consts := (id, e) :: c.compiled_consts }

/-- lookup_const_decl: find in compiled_consts. -/
def Context.lookup_const_decl (c : Context) (id : HirId) : Option Bexpression :=
  lookupAssoc c.compiled_consts id

/-- push_block: opens a block (scope_stack.push_back) and a fresh empty
pending statement list (statements.push_back of an empty vector). -/
def Context.push_block (c : Context) (scope : Bblock) : Context :=
  { c with scope_stack := scope :: c.scope_stack,
           statements := [] :: c.statements }

/-- pop_block: reads and pops the innermost block and statement list and
hands the accumulated statements to backend block_add_statements.  The
backend side effect is modelled by returning the (block, statements)
pair.  back()/pop_back() on an empty std::vector is undefined
behaviour: modelled as none (a fatal, non-recoverable outcome). -/
def Context.pop_block (c : Context) : Option ((Bblock × List Bstatement) × Context) :=
  match c.scope_stack, c.statements with
  | block :: srest, stmts :: trest =>
      some ((block, stmts),
            { c with scope_stack := srest, statements := trest })
  | _, _ => none

/-- peek_enclosing_scope: an explicitly checked size test; with no open
block it returns the nullptr sentinel (none) as an ordinary value, not
a failure. -/
def Context.peek_enclosing_scope (c : Context) : Option Bblock :=
  match c.scope_stack with
  | [] => none
  | block :: _ => some block

/-- add_statement: appends to the innermost pending statement list
(statements.back().push_back).  back() on an empty vector is undefined
behaviour: modelled as none (fatal). -/
def Context.add_statement (c : Context) (stmt : Bstatement) : Option Context :=
  match c.statements with
  | [] => none
  | stmts :: rest => some { c with statements := (stmts ++ [stmt]) :: rest }

/-- push_fn: pushes a function activation record. -/
def Context.push_fn (c : Context) (fn : Bfunction) (ret_addr : Bvariable) : Context :=
  { c with fn_stack := { fndecl := fn, ret_addr := ret_addr } :: c.fn_stack }

/-- pop_fn: pop_back on the activation stack; empty is undefined
behaviour, modelled as none (fatal). -/
def Context.pop_fn (c : Context) : Option Context :=
  match c.fn_stack with
  | [] => none
  | _ :: rest => some { c with fn_stack := rest }

/-- peek_fn: back() on the activation stack; empty is undefined
behaviour, modelled as none (fatal). -/
def Context.peek_fn (c : Context) : Option fncontext :=
  match c.fn_stack with
  | [] => none
  | fc :: _ => some fc

/-- One scope-discipline operation on the lowering context. -/
inductive BlockOp : Type where
  | push (b : Bblock)
  | pop
  | add (stmt : Bstatement)
deriving DecidableEq

/-- Runs a sequence of push_block / pop_block / add_statement calls,
collecting each pop_block result in order; none if any call hits the
undefined/fatal case. -/
def runOps : List BlockOp → Context → Option (Context × List (Bblock × List Bstatement))
  | [], c => some (c, [])
  | BlockOp.push b :: rest, c => runOps rest (c.push_block b)
  | BlockOp.pop :: rest, c =>
      match c.pop_block with
      | none => none
      | some (out, c1) =>
          match runOps rest c1 with
          | none => none
          | some (c2, outs) => some (c2, out :: outs)
  | BlockOp.add stmt :: rest, c =>
      match c.add_statement stmt with
      | none => none
      | some c1 => runOps rest c1

/-- BalancedOps (matched) sequences of block operations: every push has a
matching later pop at the same nesting depth. -/
inductive BalancedOps : List BlockOp → Prop where
  | nil : BalancedOps []
  | add (stmt : Bstatement) {ops : List BlockOp} :
      BalancedOps ops → BalancedOps (BlockOp.add stmt :: ops)
  | block (b : Bblock) {inner rest : List BlockOp} :
      BalancedOps inner → BalancedOps rest →
      BalancedOps (BlockOp.push b :: inner ++ BlockOp.pop :: rest)

/-- Statements added by a sequence at nesting depth zero, i.e. into the
block that was innermost when the sequence started. -/
def topAdds : Nat → List BlockOp → List Bstatement
  | _, [] => []
  | 0, BlockOp.add stmt :: rest => stmt :: topAdds 0 rest
  | Nat.succ d, BlockOp.add _ :: rest => topAdds (d + 1) rest
  | d, BlockOp.push _ :: rest => topAdds (d + 1) rest
  | Nat.succ d, BlockOp.pop :: rest => topAdds d rest
  | 0, BlockOp.pop :: _ => []

/-- Fatal outcomes of the target-type materializer: gcc_unreachable on
a structurally invalid variant, or a rust_assert failure on a
compiled-type cache miss. -/
inductive CompileFatal : Type where
  | unreachableVariant
  | assertFail
deriving DecidableEq

/-- Width of a signed integer TyTy type. -/
inductive IntKind : Type where
  | i8 | i16 | i32 | i64 | i128
deriving DecidableEq

/-- Width of an unsigned integer TyTy type. -/
inductive UintKind : Type where
  | u8 | u16 | u32 | u64 | u128
deriving DecidableEq

/-- Width of a floating point TyTy type. -/
inductive FloatKind : Type where
  | f32 | f64
deriving DecidableEq

/-- TyTy type objects: the closed set of variants of the internal type
model, each carrying its defining node identity (get_ref).  ArrayType
additionally carries its capacity and element type (get_capacity,
get_type). -/
inductive TyBase : Type where
  | error (ref : HirId)
  | unit (ref : HirId)
  | infer (ref : HirId)
  | fnType (ref : HirId)
  | structField (ref : HirId)
  | param (ref : HirId)
  | adt (ref : HirId)
  | array (ref : HirId) (capacity : Nat) (element : TyBase)
  | bool (ref : HirId)
  | int (ref : HirId) (kind : IntKind)
  | uint (ref : HirId) (kind : UintKind)
  | float (ref : HirId) (kind : FloatKind)
deriving DecidableEq

/-- Modelled from the spec: the binary unification operation
TyTy combine, whose implementation (rust-tyty.cc) is outside the given
source.  none models the failure (TypeError) outcome surfaced to the
caller as a null result.  Rules: Error is absorbing; Infer resolves to
the other operand; numeric types of the same variant and width combine
to themselves; Bool only with Bool; arrays need equal capacities and
combinable elements; ADTs combine only with the same defining node;
Unit only with Unit; every other pairing fails. -/
def combine : TyBase → TyBase → Option TyBase
  | TyBase.error r, _ => some (TyBase.error r)
  | _, TyBase.error r => some (TyBase.error r)
  | TyBase.infer _, other => some other
  | t, TyBase.infer _ => some t
  | TyBase.int r k1, TyBase.int _ k2 =>
      if k1 = k2 then some (TyBase.int r k1) else none
  | TyBase.uint r k1, TyBase.uint _ k2 =>
      if k1 = k2 then some (TyBase.uint r k1) else none
  | TyBase.float r k1, TyBase.float _ k2 =>
      if k1 = k2 then some (TyBase.float r k1) else none
  | TyBase.bool r, TyBase.bool _ => some (TyBase.bool r)
  | TyBase.array r c1 e1, TyBase.array _ c2 e2 =>
      if c1 = c2 then
        match combine e1 e2 with
        | none => none
        | some e => some (TyBase.array r c1 e)
      else none
  | TyBase.adt r1, TyBase.adt r2 => if r1 = r2 then some (TyBase.adt r1) else none
  | TyBase.unit r, TyBase.unit _ => some (TyBase.unit r)
  | _, _ => none

/-- TyTyResolveCompile compile: materializes a TyTy type as a backend
type.  Nominal variants (ADT, Bool, Int, Uint, Float) require a
compiled-type cache hit keyed by get_ref (rust_assert on a miss);
ArrayType is synthesized by recursively compiling the element type and
pairing it with an integer constant of type integer_type(true, 32)
holding the capacity; the six remaining variants are gcc_unreachable. -/
def TyTyResolveCompile.compile (c : Context) : TyBase → Except CompileFatal Btype
  | TyBase.error _ => Except.error CompileFatal.unreachableVariant
  | TyBase.unit _ => Except.error CompileFatal.unreachableVariant
  | TyBase.infer _ => Except.error CompileFatal.unreachableVariant
  | TyBase.fnType _ => Except.error CompileFatal.unreachableVariant
  | TyBase.structField _ => Except.error CompileFatal.unreachableVariant
  | TyBase.param _ => Except.error CompileFatal.unreachableVariant
  | TyBase.adt ref =>
      match c.lookup_compiled_types ref with
      | none => Except.error CompileFatal.assertFail
      | some t => Except.ok t
  | TyBase.array _ capacity element =>
      match TyTyResolveCompile.compile c element with
      | Except.error f => Except.error f
      | Except.ok elementType =>
          Except.ok (Btype.arrayType elementType
            (Bexpression.intConst (Btype.integerType true 32) capacity))
  | TyBase.bool ref =>
      match c.lookup_compiled_types ref with
      | none => Except.error CompileFatal.assertFail
      | some t => Except.ok t
  | TyBase.int ref _ =>
      match c.lookup_compiled_types ref with
      | none => Except.error CompileFatal.assertFail
      | some t => Except.ok t
  | TyBase.uint ref _ =>
      match c.lookup_compiled_types ref with
      | none => Except.error CompileFatal.assertFail
      | some t => Except.ok t
  | TyBase.float ref _ =>
      match c.lookup_compiled_types ref with
      | none => Except.error CompileFatal.assertFail
      | some t => Except.ok t

/-- Node mappings of an HIR node: crate number, AST node id, HIR id. -/
structure NodeMappings where
  crateNum : Nat
  nodeid : Nat
  hirid : HirId
deriving DecidableEq

/-- HIR literal classes (get_lit_type); classes whose visit case is
gcc_unreachable are collected as other. -/
inductive LitType : Type where
  | int | float | boolLit | other
deriving DecidableEq

/-- Core type hints attached to literals (get_type_hint). -/
inductive TypeHint : Type where
  | i8 | i16 | i32 | i64 | i128
  | u8 | u16 | u32 | u64 | u128
  | f32 | f64
  | unknown
deriving DecidableEq

mutual
/-- HIR expression variants whose TypeCheckExpr visit methods are given
in the source.  Each node carries its mappings and source location; the
call expression keeps only the node id of its callee (the code reads
nothing else from it) and its diagnostic string (as_string). -/
inductive Expr : Type where
  | returnExpr (m : NodeMappings) (locus : Nat) (inner : Expr)
  | callExpr (m : NodeMappings) (locus : Nat) (fnNodeId : Nat) (asStr : String)
  | assignmentExpr (m : NodeMappings) (locus : Nat) (lhs rhs : Expr)
  | identifierExpr (m : NodeMappings) (locus : Nat) (asStr : String)
  | literalExpr (m : NodeMappings) (locus : Nat) (lit : LitType) (hint : TypeHint)
  | arithmeticOrLogicalExpr (m : NodeMappings) (locus : Nat) (lhs rhs : Expr)
  | comparisonExpr (m : NodeMappings) (locus : Nat) (lhs rhs : Expr)
  | lazyBooleanExpr (m : NodeMappings) (locus : Nat) (lhs rhs : Expr)
  | ifExpr (m : NodeMappings) (locus : Nat) (cond blk : Expr)
  | ifExprConseqElse (m : NodeMappings) (locus : Nat) (cond thenBlk elseBlk : Expr)
  | ifExprConseqIf (m : NodeMappings) (locus : Nat) (cond blk conseq : Expr)
  | arrayIndexExpr (m : NodeMappings) (locus : Nat) (arrayE indexE : Expr)
  | arrayExpr (m : NodeMappings) (locus : Nat) (elems : ArrayElems)

/-- HIR array element lists: explicit values or copy-initialized. -/
inductive ArrayElems : Type where
  | values (es : ExprList)
  | copied (toCopy : Expr) (numCopies : Nat)

/-- Expression lists (kept in the mutual block for structural
recursion). -/
inductive ExprList : Type where
  | nil
  | cons (hd : Expr) (tl : ExprList)
end

/-- Mappings of an expression node. -/
def Expr.mappings : Expr → NodeMappings
  | Expr.returnExpr m _ _ => m
  | Expr.callExpr m _ _ _ => m
  | Expr.assignmentExpr m _ _ _ => m
  | Expr.identifierExpr m _ _ => m
  | Expr.literalExpr m _ _ _ => m
  | Expr.arithmeticOrLogicalExpr m _ _ _ => m
  | Expr.comparisonExpr m _ _ _ => m
  | Expr.lazyBooleanExpr m _ _ _ => m
  | Expr.ifExpr m _ _ _ => m
  | Expr.ifExprConseqElse m _ _ _ _ => m
  | Expr.ifExprConseqIf m _ _ _ _ => m
  | Expr.arrayIndexExpr m _ _ _ => m
  | Expr.arrayExpr m _ _ => m

/-- Source location of an expression node (get_locus / get_locus_slow). -/
def Expr.locusOf : Expr → Nat
  | Expr.returnExpr _ l _ => l
  | Expr.callExpr _ l _ _ => l
  | Expr.assignmentExpr _ l _ _ => l
  | Expr.identifierExpr _ l _ => l
  | Expr.literalExpr _ l _ _ => l
  | Expr.arithmeticOrLogicalExpr _ l _ _ => l
  | Expr.comparisonExpr _ l _ _ => l
  | Expr.lazyBooleanExpr _ l _ _ => l
  | Expr.ifExpr _ l _ _ => l
  | Expr.ifExprConseqElse _ l _ _ _ => l
  | Expr.ifExprConseqIf _ l _ _ _ => l
  | Expr.arrayIndexExpr _ l _ _ => l
  | Expr.arrayExpr _ l _ => l

/-- Syntactic element count of an array literal (get_num_elements). -/
def ExprList.numElements : ExprList → Nat
  | ExprList.nil => 0
  | ExprList.cons _ tl => tl.numElements + 1

/-- get_num_elements of an ArrayElems node. -/
def ArrayElems.numElements : ArrayElems → Nat
  | ArrayElems.values es => es.numElements
  | ArrayElems.copied _ n => n

/-- Read-only collaborators of the expression type checker: the
enclosing function return type (peek_return_type), the external name
resolver, the node-identity mappings, the builtin type table, the
source-location service, and the external call type checker
TypeCheckCallExpr go (rust-tyty-call, outside the given source),
modelled from the spec as a pure function of the callee type and the
call node identity that may fail to produce a type. -/
structure TCEnv where
  returnType : Option TyBase
  resolvedNames : Nat → Option Nat
  definitions : Nat → Option Nat
  nodeToHir : Nat → Nat → Option HirId
  builtins : String → Option TyBase
  locations : HirId → Nat
  callGo : TyBase → HirId → Option TyBase

/-- Mutable state threaded by a checking pass: the identity-to-type
table of the TypeCheckContext (values are stored pointers, so a stored
null is representable) and the ordered diagnostics emitted so far. -/
structure TCState where
  table : List (HirId × Option TyBase)
  diags : List (Nat × String)
deriving DecidableEq

/-- insert_type: unconditional upsert of a (possibly null) type pointer
against a node identity, modelled by consing a shadowing entry. -/
def insertType (s : TCState) (id : HirId) (v : Option TyBase) : TCState :=
  { s with table := (id, v) :: s.table }

/-- rust_error_at: appends one diagnostic, preserving order. -/
def addDiag (s : TCState) (locus : Nat) (msg : String) : TCState :=
  { s with diags := s.diags ++ [(locus, msg)] }

/-- Fatal outcomes that abort the whole checking pass: a rust_assert or
gcc_unreachable failure, a rust_fatal_error with its location and
message, or C++ undefined behaviour (null dereference, out-of-bounds
vector access). -/
inductive Fatal : Type where
  | assertFail
  | fatalError (locus : Nat) (msg : String)
  | crash
deriving DecidableEq

/-- Sequencing for the checker: propagate a fatal outcome, otherwise
feed the intermediate result and state to the continuation. -/
def bindE {α β : Type} (r : Except Fatal (α × TCState))
    (k : α → TCState → Except Fatal (β × TCState)) :
    Except Fatal (β × TCState) :=
  match r with
  | Except.error f => Except.error f
  | Except.ok (a, s) => k a s

/-- The tail of TypeCheckExpr Resolve: if the visitor computed a
non-null type, record it against the given node identity; a null result
records nothing. -/
def recordResult (hirid : HirId) (r : Except Fatal (Option TyBase × TCState)) :
    Except Fatal (Option TyBase × TCState) :=
  match r with
  | Except.ok (some t, s) => Except.ok (some t, insertType s hirid (some t))
  | other => other

/-- Builtin name selected by the literal visit for an integer literal,
by type hint (default i32; float hints flip the literal to a float). -/
def intLitName : TypeHint → String
  | TypeHint.i8 => "i8"
  | TypeHint.i16 => "i16"
  | TypeHint.i32 => "i32"
  | TypeHint.i64 => "i64"
  | TypeHint.i128 => "i128"
  | TypeHint.u8 => "u8"
  | TypeHint.u16 => "u16"
  | TypeHint.u32 => "u32"
  | TypeHint.u64 => "u64"
  | TypeHint.u128 => "u128"
  | TypeHint.f32 => "f32"
  | TypeHint.f64 => "f64"
  | TypeHint.unknown => "i32"

/-- Builtin name selected by the literal visit for a float literal
(default f32). -/
def floatLitName : TypeHint → String
  | TypeHint.f32 => "f32"
  | TypeHint.f64 => "f64"
  | _ => "f32"

/-- Modelled from the spec: TyTyExtractorArray
ExtractElementTypeFromArray (rust-tyty-resolver, outside the given
source) projects the element type out of an ArrayType; it is only
invoked after the kind was checked to be ARRAY. -/
def extractElementTypeFromArray : TyBase → TyBase
  | TyBase.array _ _ element => element
  | t => t

/-- The element-type fold of visit ArrayElemsValues, iterated exactly
as the C++ loop: the accumulator starts at types[0]; a null accumulator
or a null next element is a null dereference inside combine (crash). -/
def foldCombine : Option TyBase → List (Option TyBase) → Except Fatal (Option TyBase)
  | acc, [] => Except.ok acc
  | none, _ :: _ => Except.error Fatal.crash
  | some _, none :: _ => Except.error Fatal.crash
  | some a, some b :: rest => foldCombine (combine a b) rest

mutual
/-- TypeCheckExpr accept_vis: the visit method for each expression
variant, threading the type table and diagnostics.  Sub-expressions are
resolved through the static Resolve (visit followed by recordResult)
with is_final_expr false, except the condition of an if-with-else,
which receives the visitor's own flag, and the indexed sub-expression
of an array index, which is visited directly on the same visitor
without recording. -/
def visitExpr (env : TCEnv) (isFinal : Bool) (e : Expr) (s : TCState) :
    Except Fatal (Option TyBase × TCState) :=
  match e with
  | Expr.returnExpr _ _ inner =>
      match env.returnType with
      | none => Except.error Fatal.assertFail
      | some ret =>
          bindE (recordResult inner.mappings.hirid (visitExpr env false inner s))
            (fun exprTy s1 =>
              match exprTy with
              | none => Except.error Fatal.crash
              | some t => Except.ok (combine ret t, s1))
  | Expr.callExpr m locus fnNodeId asStr =>
      match env.resolvedNames fnNodeId with
      | none =>
          Except.ok (none,
            addDiag s locus (("Failed to lookup reference for node: ") ++ asStr))
      | some refNodeId =>
          match env.nodeToHir m.crateNum refNodeId with
          | none => Except.ok (none, addDiag s locus ("reverse lookup failure"))
          | some ref =>
              match lookupAssoc s.table ref with
              | none =>
                  Except.ok (none,
                    addDiag s locus (("consider giving this a type: ") ++ asStr))
              | some none => Except.error Fatal.crash
              | some (some lookup) => Except.ok (env.callGo lookup m.hirid, s)
  | Expr.assignmentExpr _ _ lhs rhs =>
      bindE (recordResult lhs.mappings.hirid (visitExpr env false lhs s))
        (fun lhsTy s1 =>
          bindE (recordResult rhs.mappings.hirid (visitExpr env false rhs s1))
            (fun rhsTy s2 =>
              match lhsTy, rhsTy with
              | some l, some r =>
                  Except.ok (combine l r,
                    insertType s2 lhs.mappings.hirid (combine l r))
              | _, _ => Except.error Fatal.crash))
  | Expr.identifierExpr m locus asStr =>
      match env.resolvedNames m.nodeid with
      | none =>
          Except.ok (none,
            addDiag s locus (("Failed to lookup reference for node: ") ++ asStr))
      | some refNodeId =>
          match env.definitions refNodeId with
          | none => Except.ok (none, addDiag s locus ("unknown reference"))
          | some defParent =>
              match env.nodeToHir m.crateNum defParent with
              | none => Except.ok (none, addDiag s locus ("reverse lookup failure"))
              | some ref =>
                  match lookupAssoc s.table ref with
                  | none =>
                      Except.ok (none,
                        addDiag s (env.locations ref)
                          (("consider giving this a type: ") ++ asStr))
                  | some v => Except.ok (v, s)
  | Expr.literalExpr _ _ lit hint =>
      match lit with
      | LitType.int =>
          match env.builtins (intLitName hint) with
          | none => Except.error Fatal.assertFail
          | some t => Except.ok (some t, s)
      | LitType.float =>
          match env.builtins (floatLitName hint) with
          | none => Except.error Fatal.assertFail
          | some t => Except.ok (some t, s)
      | LitType.boolLit =>
          match env.builtins ("bool") with
          | none => Except.error Fatal.assertFail
          | some t => Except.ok (some t, s)
      | LitType.other => Except.error Fatal.assertFail
  | Expr.arithmeticOrLogicalExpr _ _ lhs rhs =>
      bindE (recordResult lhs.mappings.hirid (visitExpr env false lhs s))
        (fun lhsTy s1 =>
          bindE (recordResult rhs.mappings.hirid (visitExpr env false rhs s1))
            (fun rhsTy s2 =>
              match lhsTy, rhsTy with
              | some l, some r => Except.ok (combine l r, s2)
              | _, _ => Except.error Fatal.crash))
  | Expr.comparisonExpr _ _ lhs rhs =>
      bindE (recordResult lhs.mappings.hirid (visitExpr env false lhs s))
        (fun lhsTy s1 =>
          bindE (recordResult rhs.mappings.hirid (visitExpr env false rhs s1))
            (fun rhsTy s2 =>
              match lhsTy, rhsTy with
              | some l, some r => Except.ok (combine l r, s2)
              | _, _ => Except.error Fatal.crash))
  | Expr.lazyBooleanExpr _ _ lhs rhs =>
      bindE (recordResult lhs.mappings.hirid (visitExpr env false lhs s))
        (fun lhsTy s1 =>
          bindE (recordResult rhs.mappings.hirid (visitExpr env false rhs s1))
            (fun rhsTy s2 =>
              match lhsTy, rhsTy with
              | some l, some r => Except.ok (combine l r, s2)
              | _, _ => Except.error Fatal.crash))
  | Expr.ifExpr m _ cond blk =>
      bindE (recordResult cond.mappings.hirid (visitExpr env false cond s))
        (fun _ s1 =>
          bindE (recordResult blk.mappings.hirid (visitExpr env false blk s1))
            (fun _ s2 => Except.ok (some (TyBase.unit m.hirid), s2)))
  | Expr.ifExprConseqElse m _ cond thenBlk elseBlk =>
      bindE (recordResult cond.mappings.hirid (visitExpr env isFinal cond s))
        (fun _ s1 =>
          bindE (recordResult thenBlk.mappings.hirid (visitExpr env false thenBlk s1))
            (fun thenTy s2 =>
              bindE (recordResult elseBlk.mappings.hirid
                      (visitExpr env false elseBlk s2))
                (fun elseTy s3 =>
                  match isFinal with
                  | false => Except.ok (some (TyBase.unit m.hirid), s3)
                  | true =>
                      match env.returnType, thenTy with
                      | some ret, some tT =>
                          match combine ret tT with
                          | none => Except.error Fatal.crash
                          | some c1 =>
                              match elseTy with
                              | none => Except.error Fatal.crash
                              | some tE => Except.ok (combine c1 tE, s3)
                      | _, _ => Except.error Fatal.crash)))
  | Expr.ifExprConseqIf m _ cond blk conseq =>
      bindE (recordResult cond.mappings.hirid (visitExpr env false cond s))
        (fun _ s1 =>
          bindE (recordResult blk.mappings.hirid (visitExpr env false blk s1))
            (fun _ s2 =>
              bindE (recordResult conseq.mappings.hirid (visitExpr env false conseq s2))
                (fun _ s3 => Except.ok (some (TyBase.unit m.hirid), s3))))
  | Expr.arrayIndexExpr _ _ arrayE indexE =>
      bindE (recordResult indexE.mappings.hirid (visitExpr env false indexE s))
        (fun idxTy s1 =>
          match idxTy with
          | none => Except.error Fatal.crash
          | some it =>
              match combine (TyBase.int indexE.mappings.hirid IntKind.i32) it with
              | none => Except.error Fatal.assertFail
              | some _ =>
                  bindE (visitExpr env isFinal arrayE s1)
                    (fun arrTy s2 =>
                      match arrTy with
                      | none => Except.error Fatal.crash
                      | some at_ =>
                          match at_ with
                          | TyBase.array _ _ _ =>
                              Except.ok (some (extractElementTypeFromArray at_), s2)
                          | _ =>
                              Except.error (Fatal.fatalError arrayE.locusOf
                                ("expected an ArrayType for index expression"))))
  | Expr.arrayExpr m _ elems =>
      bindE (visitElems env elems s)
        (fun elemTy s1 =>
          match elemTy with
          | none => Except.error Fatal.assertFail
          | some t =>
              Except.ok (some (TyBase.array m.hirid elems.numElements t), s1))

/-- Visit of an ArrayElems node, producing infered_array_elems: the
left fold of combine for explicit values (an empty list indexes an
empty vector: crash), or the resolved copied element. -/
def visitElems (env : TCEnv) (el : ArrayElems) (s : TCState) :
    Except Fatal (Option TyBase × TCState) :=
  match el with
  | ArrayElems.values es =>
      bindE (collectTypes env es s)
        (fun types s1 =>
          match types with
          | [] => Except.error Fatal.crash
          | t0 :: rest =>
              match foldCombine t0 rest with
              | Except.error f => Except.error f
              | Except.ok acc => Except.ok (acc, s1))
  | ArrayElems.copied toCopy _ =>
      recordResult toCopy.mappings.hirid (visitExpr env false toCopy s)

/-- The iterate loop of visit ArrayElemsValues: resolves every element
in listing order and collects the returned (possibly null) types. -/
def collectTypes (env : TCEnv) (es : ExprList) (s : TCState) :
    Except Fatal (List (Option TyBase) × TCState) :=
  match es with
  | ExprList.nil => Except.ok ([], s)
  | ExprList.cons e tl =>
      bindE (recordResult e.mappings.hirid (visitExpr env false e s))
        (fun t s1 =>
          bindE (collectTypes env tl s1)
            (fun ts s2 => Except.ok (t :: ts, s2)))
end

/-- TypeCheckExpr Resolve: runs the visitor and records the computed
type against the node identity when it is non-null. -/
def resolveExpr (env : TCEnv) (e : Expr) (isFinal : Bool) (s : TCState) :
    Except Fatal (Option TyBase × TCState) :=
  recordResult e.mappings.hirid (visitExpr env isFinal e s)

/-- Node identity read from the type table by a call expression: the
declaration reached through the resolver and the node-to-HIR mapping. -/
def callRead (env : TCEnv) (m : NodeMappings) (fnNodeId : Nat) : List HirId :=
  match env.resolvedNames fnNodeId with
  | none => []
  | some refNodeId =>
      match env.nodeToHir m.crateNum refNodeId with
      | none => []
      | some ref => [ref]

/-- Node identity read from the type table by an identifier expression:
the declaration reached through the resolver, the definition table and
the node-to-HIR mapping. -/
def identRead (env : TCEnv) (m : NodeMappings) : List HirId :=
  match env.resolvedNames m.nodeid with
  | none => []
  | some refNodeId =>
      match env.definitions refNodeId with
      | none => []
      | some defParent =>
          match env.nodeToHir m.crateNum defParent with
          | none => []
          | some ref => [ref]

mutual
/-- All node identities the visit of an expression may read from the
identity-to-type table (the declaration references of its calls and
identifiers). -/
def Expr.reads (env : TCEnv) : Expr → List HirId
  | Expr.returnExpr _ _ inner => inner.reads env
  | Expr.callExpr m _ fnNodeId _ => callRead env m fnNodeId
  | Expr.assignmentExpr _ _ lhs rhs => lhs.reads env ++ rhs.reads env
  | Expr.identifierExpr m _ _ => identRead env m
  | Expr.literalExpr _ _ _ _ => []
  | Expr.arithmeticOrLogicalExpr _ _ lhs rhs => lhs.reads env ++ rhs.reads env
  | Expr.comparisonExpr _ _ lhs rhs => lhs.reads env ++ rhs.reads env
  | Expr.lazyBooleanExpr _ _ lhs rhs => lhs.reads env ++ rhs.reads env
  | Expr.ifExpr _ _ cond blk => cond.reads env ++ blk.reads env
  | Expr.ifExprConseqElse _ _ cond thenBlk elseBlk =>
      cond.reads env ++ thenBlk.reads env ++ elseBlk.reads env
  | Expr.ifExprConseqIf _ _ cond blk conseq =>
      cond.reads env ++ blk.reads env ++ conseq.reads env
  | Expr.arrayIndexExpr _ _ arrayE indexE => indexE.reads env ++ arrayE.reads env
  | Expr.arrayExpr _ _ elems => elems.reads env

/-- Table reads of an array element list node. -/
def ArrayElems.reads (env : TCEnv) : ArrayElems → List HirId
  | ArrayElems.values es => es.reads env
  | ArrayElems.copied toCopy _ => toCopy.reads env

/-- Table reads of an expression list. -/
def ExprList.reads (env : TCEnv) : ExprList → List HirId
  | ExprList.nil => []
  | ExprList.cons hd tl => hd.reads env ++ tl.reads env
end

mutual
/-- All node identities the resolution of an expression may write into
the identity-to-type table: the mappings hirid of every node of the
tree (Resolve records each node it resolves, and an assignment
additionally rewrites the entry of its left-hand side node). -/
def Expr.writes : Expr → List HirId
  | Expr.returnExpr m _ inner => m.hirid :: inner.writes
  | Expr.callExpr m _ _ _ => [m.hirid]
  | Expr.assignmentExpr m _ lhs rhs => m.hirid :: (lhs.writes ++ rhs.writes)
  | Expr.identifierExpr m _ _ => [m.hirid]
  | Expr.literalExpr m _ _ _ => [m.hirid]
  | Expr.arithmeticOrLogicalExpr m _ lhs rhs => m.hirid :: (lhs.writes ++ rhs.writes)
  | Expr.comparisonExpr m _ lhs rhs => m.hirid :: (lhs.writes ++ rhs.writes)
  | Expr.lazyBooleanExpr m _ lhs rhs => m.hirid :: (lhs.writes ++ rhs.writes)
  | Expr.ifExpr m _ cond blk => m.hirid :: (cond.writes ++ blk.writes)
  | Expr.ifExprConseqElse m _ cond thenBlk elseBlk =>
      m.hirid :: (cond.writes ++ thenBlk.writes ++ elseBlk.writes)
  | Expr.ifExprConseqIf m _ cond blk conseq =>
      m.hirid :: (cond.writes ++ blk.writes ++ conseq.writes)
  | Expr.arrayIndexExpr m _ arrayE indexE =>
      m.hirid :: (indexE.writes ++ arrayE.writes)
  | Expr.arrayExpr m _ elems => m.hirid :: elems.writes

/-- Table writes of an array element list node. -/
def ArrayElems.writes : ArrayElems → List HirId
  | ArrayElems.values es => es.writes
  | ArrayElems.copied toCopy _ => toCopy.writes

/-- Table writes of an expression list. -/
def ExprList.writes : ExprList → List HirId
  | ExprList.nil => []
  | ExprList.cons hd tl => hd.writes ++ tl.writes
end

/-- Two states agree on a set of table keys. -/
def Agree (keys : List HirId) (s1 s2 : TCState) : Prop :=
  ∀ id, id ∈ keys → lookupAssoc s1.table id = lookupAssoc s2.table id

/-- Every key of a list of new table entries lies in a given set. -/
def keysSub (entries : List (HirId × Option TyBase)) (keys : List HirId) : Prop :=
  ∀ p, p ∈ entries → p.1 ∈ keys

/-- Correspondence of two checker runs started from different states:
they produce the same fatal outcome, or the same value together with
the same list of new table entries prepended to their respective
starting tables, those entries keyed inside a given write set.  (The
diagnostics components are unconstrained.) -/
def Corr {α : Type} (ws : List HirId) (s1 s2 : TCState)
    (r1 r2 : Except Fatal (α × TCState)) : Prop :=
  (∃ f, r1 = Except.error f ∧ r2 = Except.error f) ∨
  (∃ a entries t1 t2, r1 = Except.ok (a, t1) ∧ r2 = Except.ok (a, t2) ∧
    t1.table = entries ++ s1.table ∧ t2.table = entries ++ s2.table ∧
    keysSub entries ws)

/-- The pure left fold of combine down a list of element types, as the
spec describes the element-type fold of an array literal. -/
def leftFoldCombine (t0 : TyBase) (ts : List TyBase) : Option TyBase :=
  List.foldl (fun acc t => Option.bind acc (fun a => combine a t)) (some t0) ts

lemma lookupAssoc_cons_self {β : Type} (l : List (Nat × β)) (id : Nat) (v : β) :
    lookupAssoc ((id, v) :: l) id = some v := by
  simp [lookupAssoc]

lemma lookupAssoc_cons_ne {β : Type} (l : List (Nat × β)) (k id : Nat) (v : β)
    (h : k ≠ id) : lookupAssoc ((k, v) :: l) id = lookupAssoc l id := by
  simp [lookupAssoc, h]

lemma lookupAssoc_not_mem {β : Type} (l : List (Nat × β)) (id : Nat)
    (h : id ∉ l.map Prod.fst) : lookupAssoc l id = none := by
  induction l with
  | nil => rfl
  | cons p rest ih =>
      obtain ⟨k, v⟩ := p
      simp only [List.map_cons, List.mem_cons] at h
      push_neg at h
      have hk : ¬ (k = id) := fun hkid => h.1 hkid.symm
      simp only [lookupAssoc, if_neg hk]
      exact ih h.2

/-- C10: for each of the four identity-to-target-entity caches
(compiled types, variables, functions, constants), looking up an
identity with no entry returns the not-found result (false, with
nothing written through the out pointer and nothing inserted: lookup is
modelled as a pure function of the cache), looking up right after an
insert for that identity returns exactly the inserted value (the most
recent insert, since insert shadows), and an insert leaves every other
identity's lookup unchanged. -/
theorem context_entity_caches_lookup_spec (c : Context) (id id2 : HirId) :
    ((id ∉ c.compiled_type_map.map Prod.fst → c.lookup_compiled_types id = none) ∧
     (∀ t, (c.insert_compiled_type id t).lookup_compiled_types id = some t) ∧
     (∀ t, id2 ≠ id →
       (c.insert_compiled_type id t).lookup_compiled_types id2 =
         c.lookup_compiled_types id2)) ∧
    ((id ∉ c.compiled_var_decls.map Prod.fst → c.lookup_var_decl id = none) ∧
     (∀ v, (c.insert_var_decl id v).lookup_var_decl id = some v) ∧
     (∀ v, id2 ≠ id →
       (c.insert_var_decl id v).lookup_var_decl id2 = c.lookup_var_decl id2)) ∧
    ((id ∉ c.compiled_fn_map.map Prod.fst → c.lookup_function_decl id = none) ∧
     (∀ f, (c.insert_function_decl id f).lookup_function_decl id = some f) ∧
     (∀ f, id2 ≠ id →
       (c.insert_function_decl id f).lookup_function_decl id2 =
         c.lookup_function_decl id2)) ∧
    ((id ∉ c.compiled_consts.map Prod.fst → c.lookup_const_decl id = none) ∧
     (∀ e, (c.insert_const_decl id e).lookup_const_decl id = some e) ∧
     (∀ e, id2 ≠ id →
       (c.insert_const_decl id e).lookup_const_decl id2 = c.lookup_const_decl id2)) := by
  refine ⟨⟨?_, ?_, ?_⟩, ⟨?_, ?_, ?_⟩, ⟨?_, ?_, ?_⟩, ?_, ?_, ?_⟩
  · exact fun h => lookupAssoc_not_mem _ _ h
  · exact fun t => lookupAssoc_cons_self _ _ _
  · exact fun t h => lookupAssoc_cons_ne _ _ _ _ (fun e => h e.symm)
  · exact fun h => lookupAssoc_not_mem _ _ h
  · exact fun v => lookupAssoc_cons_self _ _ _
  · exact fun v h => lookupAssoc_cons_ne _ _ _ _ (fun e => h e.symm)
  · exact fun h => lookupAssoc_not_mem _ _ h
  · exact fun f => lookupAssoc_cons_self _ _ _
  · exact fun f h => lookupAssoc_cons_ne _ _ _ _ (fun e => h e.symm)
  · exact fun h => lookupAssoc_not_mem _ _ h
  · exact fun e => lookupAssoc_cons_self _ _ _
  · exact fun e h => lookupAssoc_cons_ne _ _ _ _ (fun e2 => h e2.symm)

/-- C10 witness: on a concrete context, an absent identity looks up as
not-found in all four caches, an inserted entry is returned, and an
unrelated identity is unaffected. -/
theorem context_entity_caches_lookup_spec_witness :
    let c : Context :=
      { fn_stack := [], compiled_var_decls := [(1, 11)],
        compiled_type_map := [(1, Btype.named 5)], compiled_fn_map := [(1, 7)],
        compiled_consts := [(1, Bexpression.opaqueExpr 3)],
        statements := [], scope_stack := [] }
    (2 ∉ c.compiled_type_map.map Prod.fst → c.lookup_compiled_types 2 = none) ∧
    (∀ t, (c.insert_compiled_type 2 t).lookup_compiled_types 2 = some t) ∧
    (∀ t, (1 : HirId) ≠ 2 →
      (c.insert_compiled_type 2 t).lookup_compiled_types 1 =
        c.lookup_compiled_types 1) :=
  (context_entity_caches_lookup_spec _ 2 1).1

/-- C8: with no block open, pop_block hits the undefined (fatal,
non-recoverable) case, while peek_enclosing_scope takes its explicitly
checked branch and returns the null sentinel as an ordinary value;
likewise pop_fn and peek_fn on an empty function-activation stack hit
the undefined (fatal) case. -/
theorem empty_stack_pop_fatal_peek_checked (c : Context) :
    (c.scope_stack = [] →
      c.pop_block = none ∧ c.peek_enclosing_scope = none) ∧
    (c.fn_stack = [] → c.pop_fn = none ∧ c.peek_fn = none) := by
  constructor
  · intro h
    constructor
    · cases hs : c.statements <;> simp [Context.pop_block, h, hs]
    · simp [Context.peek_enclosing_scope, h]
  · intro h
    exact ⟨by simp [Context.pop_fn, h], by simp [Context.peek_fn, h]⟩

/-- C8 witness: the concrete empty context. -/
theorem empty_stack_pop_fatal_peek_checked_witness :
    let c : Context :=
      { fn_stack := [], compiled_var_decls := [], compiled_type_map := [],
        compiled_fn_map := [], compiled_consts := [],
        statements := [], scope_stack := [] }
    (c.pop_block = none ∧ c.peek_enclosing_scope = none) ∧
    (c.pop_fn = none ∧ c.peek_fn = none) :=
  ⟨(empty_stack_pop_fatal_peek_checked _).1 rfl,
   (empty_stack_pop_fatal_peek_checked _).2 rfl⟩

/-- C9: the target-type materializer rejects the six structurally
invalid variants (error, unit, infer, fn, struct-field, param) as
unreachable; for nominal variants (ADT, bool, int, uint, float) a
compiled-type cache hit keyed by the defining reference is returned and
a miss is a fatal assertion; an array type is synthesized by
recursively compiling its element type and pairing it with an integer
constant of the 32-bit backend integer type holding the capacity. -/
theorem tyty_resolve_compile_spec (c : Context) :
    (∀ r, TyTyResolveCompile.compile c (TyBase.error r) =
      Except.error CompileFatal.unreachableVariant) ∧
    (∀ r, TyTyResolveCompile.compile c (TyBase.unit r) =
      Except.error CompileFatal.unreachableVariant) ∧
    (∀ r, TyTyResolveCompile.compile c (TyBase.infer r) =
      Except.error CompileFatal.unreachableVariant) ∧
    (∀ r, TyTyResolveCompile.compile c (TyBase.fnType r) =
      Except.error CompileFatal.unreachableVariant) ∧
    (∀ r, TyTyResolveCompile.compile c (TyBase.structField r) =
      Except.error CompileFatal.unreachableVariant) ∧
    (∀ r, TyTyResolveCompile.compile c (TyBase.param r) =
      Except.error CompileFatal.unreachableVariant) ∧
    (∀ r t, c.lookup_compiled_types r = some t →
      TyTyResolveCompile.compile c (TyBase.adt r) = Except.ok t) ∧
    (∀ r, c.lookup_compiled_types r = none →
      TyTyResolveCompile.compile c (TyBase.adt r) =
        Except.error CompileFatal.assertFail) ∧
    (∀ r t, c.lookup_compiled_types r = some t →
      TyTyResolveCompile.compile c (TyBase.bool r) = Except.ok t) ∧
    (∀ r, c.lookup_compiled_types r = none →
      TyTyResolveCompile.compile c (TyBase.bool r) =
        Except.error CompileFatal.assertFail) ∧
    (∀ r k t, c.lookup_compiled_types r = some t →
      TyTyResolveCompile.compile c (TyBase.int r k) = Except.ok t) ∧
    (∀ r k, c.lookup_compiled_types r = none →
      TyTyResolveCompile.compile c (TyBase.int r k) =
        Except.error CompileFatal.assertFail) ∧
    (∀ r k t, c.lookup_compiled_types r = some t →
      TyTyResolveCompile.compile c (TyBase.uint r k) = Except.ok t) ∧
    (∀ r k, c.lookup_compiled_types r = none →
      TyTyResolveCompile.compile c (TyBase.uint r k) =
        Except.error CompileFatal.assertFail) ∧
    (∀ r k t, c.lookup_compiled_types r = some t →
      TyTyResolveCompile.compile c (TyBase.float r k) = Except.ok t) ∧
    (∀ r k, c.lookup_compiled_types r = none →
      TyTyResolveCompile.compile c (TyBase.float r k) =
        Except.error CompileFatal.assertFail) ∧
    (∀ r cap element bt, TyTyResolveCompile.compile c element = Except.ok bt →
      TyTyResolveCompile.compile c (TyBase.array r cap element) =
        Except.ok (Btype.arrayType bt
          (Bexpression.intConst (Btype.integerType true 32) cap))) ∧
    (∀ r cap element f, TyTyResolveCompile.compile c element = Except.error f →
      TyTyResolveCompile.compile c (TyBase.array r cap element) = Except.error f) := by
  refine ⟨fun r => rfl, fun r => rfl, fun r => rfl, fun r => rfl, fun r => rfl,
    fun r => rfl, ?_, ?_, ?_, ?_, ?_, ?_, ?_, ?_, ?_, ?_, ?_, ?_⟩
  all_goals intro r
  all_goals first
    | (intro t h; simp [TyTyResolveCompile.compile, h])
    | (intro h; simp [TyTyResolveCompile.compile, h])
    | (intro k t h; simp [TyTyResolveCompile.compile, h])
    | (intro k h; simp [TyTyResolveCompile.compile, h])
    | (intro cap element bt h; simp [TyTyResolveCompile.compile, h])
    | (intro cap element f h; simp [TyTyResolveCompile.compile, h])

/-- C9 witness: a context whose cache holds the defining reference 3;
the ADT with reference 3 compiles to the cached handle, the ADT with
the absent reference 4 is a fatal assertion, the invalid unit variant
is unreachable, and an array of capacity 4 over that ADT synthesizes
the composite backend type. -/
theorem tyty_resolve_compile_spec_witness :
    let c : Context :=
      { fn_stack := [], compiled_var_decls := [],
        compiled_type_map := [(3, Btype.named 30)], compiled_fn_map := [],
        compiled_consts := [], statements := [], scope_stack := [] }
    TyTyResolveCompile.compile c (TyBase.adt 3) = Except.ok (Btype.named 30) ∧
    TyTyResolveCompile.compile c (TyBase.adt 4) =
      Except.error CompileFatal.assertFail ∧
    TyTyResolveCompile.compile c (TyBase.unit 9) =
      Except.error CompileFatal.unreachableVariant ∧
    TyTyResolveCompile.compile c (TyBase.array 8 4 (TyBase.adt 3)) =
      Except.ok (Btype.arrayType (Btype.named 30)
        (Bexpression.intConst (Btype.integerType true 32) 4)) := by
  intro c
  refine ⟨(tyty_resolve_compile_spec c).2.2.2.2.2.2.1 3 (Btype.named 30) rfl,
    (tyty_resolve_compile_spec c).2.2.2.2.2.2.2.1 4 rfl,
    (tyty_resolve_compile_spec c).2.1 9,
    (tyty_resolve_compile_spec c).2.2.2.2.2.2.2.2.2.2.2.2.2.2.2.2.1 8 4
      (TyBase.adt 3) (Btype.named 30)
      ((tyty_resolve_compile_spec c).2.2.2.2.2.2.1 3 (Btype.named 30) rfl)⟩


lemma runOps_append (l1 l2 : List BlockOp) :
    ∀ c : Context, runOps (l1 ++ l2) c =
      match runOps l1 c with
      | none => none
      | some (c1, o1) =>
          match runOps l2 c1 with
          | none => none
          | some (c2, o2) => some (c2, o1 ++ o2) := by
  induction l1 with
  | nil =>
      intro c
      cases h : runOps l2 c <;> simp [runOps, h]
  | cons op rest ih =>
      intro c
      cases op with
      | push b =>
          show runOps (rest ++ l2) (c.push_block b) =
            match runOps rest (c.push_block b) with
            | none => none
            | some (c1, o1) =>
                match runOps l2 c1 with
                | none => none
                | some (c2, o2) => some (c2, o1 ++ o2)
          exact ih (c.push_block b)
      | pop =>
          cases hp : c.pop_block with
          | none =>
              show runOps (BlockOp.pop :: (rest ++ l2)) c = _
              simp only [runOps, hp]
          | some out1 =>
              obtain ⟨out, c1⟩ := out1
              show runOps (BlockOp.pop :: (rest ++ l2)) c = _
              simp only [runOps, hp]
              rw [ih c1]
              cases h1 : runOps rest c1 with
              | none => rfl
              | some r1 =>
                  obtain ⟨c2, o1⟩ := r1
                  cases h2 : runOps l2 c2 <;> simp [h2]
      | add stmt =>
          cases ha : c.add_statement stmt with
          | none =>
              show runOps (BlockOp.add stmt :: (rest ++ l2)) c = _
              simp only [runOps, ha]
          | some c1 =>
              show runOps (BlockOp.add stmt :: (rest ++ l2)) c = _
              simp only [runOps, ha]
              exact ih c1

lemma topAdds_append_pop {inner : List BlockOp} (h : BalancedOps inner) :
    ∀ (d : Nat) (rest : List BlockOp),
      topAdds (d + 1) (inner ++ BlockOp.pop :: rest) = topAdds d rest := by
  induction h with
  | nil => intro d rest; rfl
  | add stmt hops ih =>
      rename_i ops
      intro d rest
      show topAdds (d + 1) (ops ++ BlockOp.pop :: rest) = topAdds d rest
      exact ih d rest
  | block b hinner hrest ihinner ihrest =>
      rename_i inn rst
      intro d rest
      have hshape :
          ((BlockOp.push b :: inn) ++ (BlockOp.pop :: rst)) ++ BlockOp.pop :: rest =
            (BlockOp.push b :: inn) ++
              (BlockOp.pop :: (rst ++ BlockOp.pop :: rest)) := by
        simp
      rw [hshape]
      show topAdds (d + 1 + 1) (inn ++ BlockOp.pop :: (rst ++ BlockOp.pop :: rest)) =
        topAdds d rest
      rw [ihinner (d + 1) (rst ++ BlockOp.pop :: rest)]
      exact ihrest d rest

lemma bal_run {ops : List BlockOp} (h : BalancedOps ops) :
    ∀ (c : Context) (stTop : List Bstatement) (stRest : List (List Bstatement)),
      c.statements = stTop :: stRest →
      ∃ outs, runOps ops c =
        some ({ c with statements := (stTop ++ topAdds 0 ops) :: stRest }, outs) := by
  induction h with
  | nil =>
      intro c stTop stRest hst
      refine ⟨[], ?_⟩
      show some (c, []) = _
      rw [show (stTop ++ topAdds 0 ([] : List BlockOp)) = stTop from List.append_nil stTop,
        ← hst]
  | add stmt hops ih =>
      rename_i ops
      intro c stTop stRest hst
      obtain ⟨fs, cv, ct, cf, cc, stmts, scopes⟩ := c
      simp only at hst
      subst hst
      obtain ⟨outs, hrun⟩ := ih
        ⟨fs, cv, ct, cf, cc, (stTop ++ [stmt]) :: stRest, scopes⟩ (stTop ++ [stmt])
        stRest rfl
      refine ⟨outs, ?_⟩
      show runOps ops ⟨fs, cv, ct, cf, cc, (stTop ++ [stmt]) :: stRest, scopes⟩ = _
      rw [hrun]
      simp [topAdds, List.append_assoc]
  | block b hinner hrest ihinner ihrest =>
      rename_i inn rst
      intro c stTop stRest hst
      obtain ⟨fs, cv, ct, cf, cc, stmts, scopes⟩ := c
      simp only at hst
      subst hst
      obtain ⟨outs1, hrun1⟩ := ihinner
        ⟨fs, cv, ct, cf, cc, [] :: stTop :: stRest, b :: scopes⟩ [] (stTop :: stRest) rfl
      obtain ⟨outs2, hrun2⟩ := ihrest
        ⟨fs, cv, ct, cf, cc, stTop :: stRest, scopes⟩ stTop stRest rfl
      refine ⟨outs1 ++ ((b, topAdds 0 inn) :: outs2), ?_⟩
      have htop : topAdds 0 ((BlockOp.push b :: inn) ++ BlockOp.pop :: rst) =
          topAdds 0 rst := topAdds_append_pop hinner 0 rst
      rw [htop]
      show runOps (inn ++ BlockOp.pop :: rst)
          ⟨fs, cv, ct, cf, cc, [] :: stTop :: stRest, b :: scopes⟩ = _
      rw [runOps_append inn (BlockOp.pop :: rst)]
      rw [hrun1]
      simp only [runOps, Context.pop_block, List.nil_append]
      rw [hrun2]

lemma runOps_depth (ops : List BlockOp) :
    ∀ (c c' : Context) (outs : List (Bblock × List Bstatement)),
      runOps ops c = some (c', outs) →
      c.scope_stack.length = c.statements.length →
      c'.scope_stack.length = c'.statements.length := by
  induction ops with
  | nil =>
      intro c c' outs h hl
      simp only [runOps, Option.some.injEq, Prod.mk.injEq] at h
      rw [← h.1]
      exact hl
  | cons op rest ih =>
      intro c c' outs h hl
      cases op with
      | push b =>
          simp only [runOps] at h
          refine ih _ _ _ h ?_
          simp [Context.push_block, hl]
      | pop =>
          simp only [runOps] at h
          cases hp : c.pop_block with
          | none => rw [hp] at h; exact absurd h (by simp)
          | some out1 =>
              rw [hp] at h
              obtain ⟨out, c1⟩ := out1
              simp only at h
              cases h1 : runOps rest c1 with
              | none => rw [h1] at h; exact absurd h (by simp)
              | some r1 =>
                  rw [h1] at h
                  obtain ⟨c2, o1⟩ := r1
                  simp only [Option.some.injEq, Prod.mk.injEq] at h
                  obtain ⟨fs, cv, ct, cf, cc, stmts, scopes⟩ := c
                  cases scopes with
                  | nil => simp [Context.pop_block] at hp
                  | cons bb srest =>
                      cases stmts with
                      | nil => simp [Context.pop_block] at hp
                      | cons st trest =>
                          simp only [Context.pop_block, Option.some.injEq,
                            Prod.mk.injEq] at hp
                          rw [← h.1]
                          refine ih _ _ _ h1 ?_
                          rw [← hp.2]
                          simp only [List.length_cons] at hl
                          exact Nat.succ_injective hl
      | add stmt =>
          simp only [runOps] at h
          cases ha : c.add_statement stmt with
          | none => rw [ha] at h; exact absurd h (by simp)
          | some c1 =>
              rw [ha] at h
              simp only at h
              refine ih _ _ _ h ?_
              obtain ⟨fs, cv, ct, cf, cc, stmts, scopes⟩ := c
              cases stmts with
              | nil => simp [Context.add_statement] at ha
              | cons st trest =>
                  simp only [Context.add_statement, Option.some.injEq] at ha
                  rw [← ha]
                  simpa using hl

/-- C7: running any sequence of scope operations that succeeds preserves
the invariant that the scope stack and the statement-list stack have
equal depth; and for a matched push_block / pop_block pair around any
balanced inner sequence, the final pop_block returns exactly the block
supplied to the matching push_block paired with the statements added at
that nesting level since the push, in insertion order, and restores the
context to its starting value. -/
theorem scope_stack_balance (c : Context) :
    (∀ (ops : List BlockOp) (c' : Context) (outs : List (Bblock × List Bstatement)),
      runOps ops c = some (c', outs) →
      c.scope_stack.length = c.statements.length →
      c'.scope_stack.length = c'.statements.length) ∧
    (∀ (b : Bblock) (inner : List BlockOp), BalancedOps inner →
      ∃ outs, runOps (BlockOp.push b :: (inner ++ [BlockOp.pop])) c =
        some (c, outs ++ [(b, topAdds 0 inner)])) := by
  constructor
  · intro ops c' outs h hl
    exact runOps_depth ops c c' outs h hl
  · intro b inner hbal
    obtain ⟨fs, cv, ct, cf, cc, stmts, scopes⟩ := c
    obtain ⟨outs1, hrun1⟩ := bal_run hbal
      ⟨fs, cv, ct, cf, cc, [] :: stmts, b :: scopes⟩ [] stmts rfl
    refine ⟨outs1, ?_⟩
    show runOps (inner ++ [BlockOp.pop])
        ⟨fs, cv, ct, cf, cc, [] :: stmts, b :: scopes⟩ = _
    rw [runOps_append inner [BlockOp.pop]]
    rw [hrun1]
    simp only [runOps, Context.pop_block, List.nil_append]

/-- C7 witness: pushing block 5, adding statements 21 and 22 around a
nested (push 6 / add 23 / pop) group, then popping, returns block 5
with exactly the statements 21 and 22 (the nested group yields block 6
with statement 23), restoring the empty context; and the depth
invariant transports across the run. -/
theorem scope_stack_balance_witness :
    let c : Context :=
      { fn_stack := [], compiled_var_decls := [], compiled_type_map := [],
        compiled_fn_map := [], compiled_consts := [],
        statements := [], scope_stack := [] }
    let inner : List BlockOp :=
      [BlockOp.add 21, BlockOp.push 6, BlockOp.add 23, BlockOp.pop, BlockOp.add 22]
    (∃ outs, runOps (BlockOp.push 5 :: (inner ++ [BlockOp.pop])) c =
      some (c, outs ++ [(5, topAdds 0 inner)])) ∧
    (∀ (c' : Context) (outs : List (Bblock × List Bstatement)),
      runOps (BlockOp.push 5 :: (inner ++ [BlockOp.pop])) c = some (c', outs) →
      c.scope_stack.length = c.statements.length →
      c'.scope_stack.length = c'.statements.length) := by
  intro c inner
  refine ⟨(scope_stack_balance c).2 5 inner ?_,
    fun c' outs h hl => (scope_stack_balance c).1 _ c' outs h hl⟩
  show BalancedOps
    (BlockOp.add 21 :: ((BlockOp.push 6 :: ([BlockOp.add 23] ++ [BlockOp.pop, BlockOp.add 22]))))
  exact BalancedOps.add 21 (BalancedOps.block 6
    (BalancedOps.add 23 BalancedOps.nil) (BalancedOps.add 22 BalancedOps.nil))

/-- C2: the assignment visit resolves the left-hand side, then the
right-hand side, combines the two types, records the combined result
(even a null one) against the left-hand side node identity, overwriting
whatever was recorded for it, and makes it the assignment expression's
own computed type (recorded against the assignment node when
non-null). -/
theorem assignment_overwrites_lhs_type (env : TCEnv) (m : NodeMappings)
    (locus : Nat) (lhs rhs : Expr) (isFinal : Bool) (s s1 s2 : TCState)
    (lt rt : TyBase)
    (h1 : resolveExpr env lhs false s = Except.ok (some lt, s1))
    (h2 : resolveExpr env rhs false s1 = Except.ok (some rt, s2))
    (hne : m.hirid ≠ lhs.mappings.hirid) :
    ∃ sF, resolveExpr env (Expr.assignmentExpr m locus lhs rhs) isFinal s =
        Except.ok (combine lt rt, sF) ∧
      lookupAssoc sF.table lhs.mappings.hirid = some (combine lt rt) ∧
      (∀ t, combine lt rt = some t →
        lookupAssoc sF.table m.hirid = some (some t)) ∧
      (combine lt rt = none →
        lookupAssoc sF.table m.hirid = lookupAssoc s2.table m.hirid) := by
  have e1 : recordResult lhs.mappings.hirid (visitExpr env false lhs s) =
      Except.ok (some lt, s1) := h1
  have e2 : recordResult rhs.mappings.hirid (visitExpr env false rhs s1) =
      Except.ok (some rt, s2) := h2
  have hv : visitExpr env isFinal (Expr.assignmentExpr m locus lhs rhs) s =
      Except.ok (combine lt rt, insertType s2 lhs.mappings.hirid (combine lt rt)) := by
    simp only [visitExpr]
    rw [e1]
    simp only [bindE]
    rw [e2]
  cases hc : combine lt rt with
  | some t =>
      refine ⟨insertType (insertType s2 lhs.mappings.hirid (some t)) m.hirid (some t),
        ?_, ?_, ?_, ?_⟩
      · show recordResult m.hirid (visitExpr env isFinal
          (Expr.assignmentExpr m locus lhs rhs) s) = _
        rw [hv, hc]
        rfl
      · show lookupAssoc ((m.hirid, some t) ::
          (lhs.mappings.hirid, some t) :: s2.table) lhs.mappings.hirid = _
        rw [lookupAssoc_cons_ne _ _ _ _ hne, lookupAssoc_cons_self]
      · intro t2 ht2
        cases ht2
        exact lookupAssoc_cons_self _ _ _
      · intro hn
        cases hn
  | none =>
      refine ⟨insertType s2 lhs.mappings.hirid none, ?_, ?_, ?_, ?_⟩
      · show recordResult m.hirid (visitExpr env isFinal
          (Expr.assignmentExpr m locus lhs rhs) s) = _
        rw [hv, hc]
        rfl
      · show lookupAssoc ((lhs.mappings.hirid, none) :: s2.table) lhs.mappings.hirid = _
        rw [lookupAssoc_cons_self]
      · intro t2 ht2
        cases ht2
      · intro _
        exact lookupAssoc_cons_ne _ _ _ _ (fun e => hne e.symm)

/-- C2 witness: assigning an i32 literal to an identifier whose
declaration is typed i32 computes the combined i32, overwrites the
identifier node's recorded type and records the assignment's own
type. -/
theorem assignment_overwrites_lhs_type_witness :
    let env : TCEnv :=
      { returnType := none,
        resolvedNames := fun n => if n = 1 then some 10 else none,
        definitions := fun n => if n = 10 then some 20 else none,
        nodeToHir := fun _ n => if n = 20 then some 100 else none,
        builtins := fun nm =>
          if nm = ("i32") then some (TyBase.int 901 IntKind.i32) else none,
        locations := fun r => r + 1000,
        callGo := fun _ _ => none }
    let lhs : Expr :=
      Expr.identifierExpr { crateNum := 0, nodeid := 1, hirid := 5 } 50 ("x")
    let rhs : Expr :=
      Expr.literalExpr { crateNum := 0, nodeid := 2, hirid := 6 } 60
        LitType.int TypeHint.unknown
    let s0 : TCState := { table := [(100, some (TyBase.int 100 IntKind.i32))], diags := [] }
    let s2 : TCState :=
      { table := [(6, some (TyBase.int 901 IntKind.i32)),
                  (5, some (TyBase.int 100 IntKind.i32)),
                  (100, some (TyBase.int 100 IntKind.i32))], diags := [] }
    ∃ sF, resolveExpr env
        (Expr.assignmentExpr { crateNum := 0, nodeid := 3, hirid := 9 } 90 lhs rhs)
        false s0 =
        Except.ok (combine (TyBase.int 100 IntKind.i32) (TyBase.int 901 IntKind.i32), sF) ∧
      lookupAssoc sF.table 5 =
        some (combine (TyBase.int 100 IntKind.i32) (TyBase.int 901 IntKind.i32)) ∧
      (∀ t, combine (TyBase.int 100 IntKind.i32) (TyBase.int 901 IntKind.i32) = some t →
        lookupAssoc sF.table 9 = some (some t)) ∧
      (combine (TyBase.int 100 IntKind.i32) (TyBase.int 901 IntKind.i32) = none →
        lookupAssoc sF.table 9 = lookupAssoc s2.table 9) := by
  intro env lhs rhs s0 s2
  exact assignment_overwrites_lhs_type env _ 90 lhs rhs false s0
    { table := [(5, some (TyBase.int 100 IntKind.i32)),
                (100, some (TyBase.int 100 IntKind.i32))], diags := [] }
    s2 (TyBase.int 100 IntKind.i32) (TyBase.int 901 IntKind.i32) rfl rfl (by decide)

/-- C1: for an if/else with both branches resolved in final-expression
position, the computed (and recorded) type is the combination of the
enclosing function's return type first with the then-branch type and
then with the else-branch type; if the second combination fails the
node keeps no type (the mismatch stays an error); in non-final position
the condition and both branches are still resolved but the expression's
type is Unit. -/
theorem if_else_final_position_typing (env : TCEnv) (m : NodeMappings)
    (locus : Nat) (cond thenBlk elseBlk : Expr) :
    (∀ (s s1 s2 s3 : TCState) (condTy : Option TyBase) (tT tE ret cRT cF : TyBase),
      env.returnType = some ret →
      resolveExpr env cond true s = Except.ok (condTy, s1) →
      resolveExpr env thenBlk false s1 = Except.ok (some tT, s2) →
      resolveExpr env elseBlk false s2 = Except.ok (some tE, s3) →
      combine ret tT = some cRT →
      combine cRT tE = some cF →
      resolveExpr env (Expr.ifExprConseqElse m locus cond thenBlk elseBlk) true s =
        Except.ok (some cF, insertType s3 m.hirid (some cF))) ∧
    (∀ (s s1 s2 s3 : TCState) (condTy : Option TyBase) (tT tE ret cRT : TyBase),
      env.returnType = some ret →
      resolveExpr env cond true s = Except.ok (condTy, s1) →
      resolveExpr env thenBlk false s1 = Except.ok (some tT, s2) →
      resolveExpr env elseBlk false s2 = Except.ok (some tE, s3) →
      combine ret tT = some cRT →
      combine cRT tE = none →
      resolveExpr env (Expr.ifExprConseqElse m locus cond thenBlk elseBlk) true s =
        Except.ok (none, s3)) ∧
    (∀ (s s1 s2 s3 : TCState) (condTy tT tE : Option TyBase),
      resolveExpr env cond false s = Except.ok (condTy, s1) →
      resolveExpr env thenBlk false s1 = Except.ok (tT, s2) →
      resolveExpr env elseBlk false s2 = Except.ok (tE, s3) →
      resolveExpr env (Expr.ifExprConseqElse m locus cond thenBlk elseBlk) false s =
        Except.ok (some (TyBase.unit m.hirid),
          insertType s3 m.hirid (some (TyBase.unit m.hirid)))) := by
  refine ⟨?_, ?_, ?_⟩
  · intro s s1 s2 s3 condTy tT tE ret cRT cF hret h1 h2 h3 hc1 hc2
    have e1 : recordResult cond.mappings.hirid (visitExpr env true cond s) =
        Except.ok (condTy, s1) := h1
    have e2 : recordResult thenBlk.mappings.hirid (visitExpr env false thenBlk s1) =
        Except.ok (some tT, s2) := h2
    have e3 : recordResult elseBlk.mappings.hirid (visitExpr env false elseBlk s2) =
        Except.ok (some tE, s3) := h3
    show recordResult m.hirid
      (visitExpr env true (Expr.ifExprConseqElse m locus cond thenBlk elseBlk) s) = _
    have hv : visitExpr env true (Expr.ifExprConseqElse m locus cond thenBlk elseBlk) s =
        Except.ok (some cF, s3) := by
      simp only [visitExpr]
      rw [e1]
      simp only [bindE]
      rw [e2]
      simp only [bindE]
      rw [e3]
      simp only [bindE]
      simp only [hret, hc1, hc2]
    rw [hv]
    rfl
  · intro s s1 s2 s3 condTy tT tE ret cRT hret h1 h2 h3 hc1 hc2
    have e1 : recordResult cond.mappings.hirid (visitExpr env true cond s) =
        Except.ok (condTy, s1) := h1
    have e2 : recordResult thenBlk.mappings.hirid (visitExpr env false thenBlk s1) =
        Except.ok (some tT, s2) := h2
    have e3 : recordResult elseBlk.mappings.hirid (visitExpr env false elseBlk s2) =
        Except.ok (some tE, s3) := h3
    show recordResult m.hirid
      (visitExpr env true (Expr.ifExprConseqElse m locus cond thenBlk elseBlk) s) = _
    have hv : visitExpr env true (Expr.ifExprConseqElse m locus cond thenBlk elseBlk) s =
        Except.ok (none, s3) := by
      simp only [visitExpr]
      rw [e1]
      simp only [bindE]
      rw [e2]
      simp only [bindE]
      rw [e3]
      simp only [bindE]
      simp only [hret, hc1, hc2]
    rw [hv]
    rfl
  · intro s s1 s2 s3 condTy tT tE h1 h2 h3
    have e1 : recordResult cond.mappings.hirid (visitExpr env false cond s) =
        Except.ok (condTy, s1) := h1
    have e2 : recordResult thenBlk.mappings.hirid (visitExpr env false thenBlk s1) =
        Except.ok (tT, s2) := h2
    have e3 : recordResult elseBlk.mappings.hirid (visitExpr env false elseBlk s2) =
        Except.ok (tE, s3) := h3
    show recordResult m.hirid
      (visitExpr env false (Expr.ifExprConseqElse m locus cond thenBlk elseBlk) s) = _
    have hv : visitExpr env false (Expr.ifExprConseqElse m locus cond thenBlk elseBlk) s =
        Except.ok (some (TyBase.unit m.hirid), s3) := by
      simp only [visitExpr]
      rw [e1]
      simp only [bindE]
      rw [e2]
      simp only [bindE]
      rw [e3]
    rw [hv]
    rfl

/-- C1 witness: inside a function returning u8, an if/else whose
branches are u8 literals types as u8 in final position (combined with
the return type first, then the else branch), and as Unit in non-final
position. -/
theorem if_else_final_position_typing_witness :
    let env : TCEnv :=
      { returnType := some (TyBase.uint 900 UintKind.u8),
        resolvedNames := fun _ => none,
        definitions := fun _ => none,
        nodeToHir := fun _ _ => none,
        builtins := fun nm =>
          if nm = ("u8") then some (TyBase.uint 901 UintKind.u8)
          else if nm = ("bool") then some (TyBase.bool 902) else none,
        locations := fun r => r,
        callGo := fun _ _ => none }
    let cond : Expr :=
      Expr.literalExpr { crateNum := 0, nodeid := 1, hirid := 11 } 10
        LitType.boolLit TypeHint.unknown
    let thenBlk : Expr :=
      Expr.literalExpr { crateNum := 0, nodeid := 2, hirid := 12 } 20
        LitType.int TypeHint.u8
    let elseBlk : Expr :=
      Expr.literalExpr { crateNum := 0, nodeid := 3, hirid := 13 } 30
        LitType.int TypeHint.u8
    let ifElse : Expr :=
      Expr.ifExprConseqElse { crateNum := 0, nodeid := 4, hirid := 14 } 40
        cond thenBlk elseBlk
    let s3 : TCState :=
      { table := [(13, some (TyBase.uint 901 UintKind.u8)),
                  (12, some (TyBase.uint 901 UintKind.u8)),
                  (11, some (TyBase.bool 902))], diags := [] }
    resolveExpr env ifElse true { table := [], diags := [] } =
      Except.ok (some (TyBase.uint 900 UintKind.u8),
        insertType s3 14 (some (TyBase.uint 900 UintKind.u8))) ∧
    resolveExpr env ifElse false { table := [], diags := [] } =
      Except.ok (some (TyBase.unit 14),
        insertType s3 14 (some (TyBase.unit 14))) := by
  intro env cond thenBlk elseBlk ifElse s3
  constructor
  · exact (if_else_final_position_typing env _ 40 cond thenBlk elseBlk).1
      { table := [], diags := [] }
      { table := [(11, some (TyBase.bool 902))], diags := [] }
      { table := [(12, some (TyBase.uint 901 UintKind.u8)),
                  (11, some (TyBase.bool 902))], diags := [] }
      s3 (some (TyBase.bool 902)) (TyBase.uint 901 UintKind.u8)
      (TyBase.uint 901 UintKind.u8) (TyBase.uint 900 UintKind.u8)
      (TyBase.uint 900 UintKind.u8) (TyBase.uint 900 UintKind.u8)
      rfl rfl rfl rfl rfl rfl
  · exact (if_else_final_position_typing env _ 40 cond thenBlk elseBlk).2.2
      { table := [], diags := [] }
      { table := [(11, some (TyBase.bool 902))], diags := [] }
      { table := [(12, some (TyBase.uint 901 UintKind.u8)),
                  (11, some (TyBase.bool 902))], diags := [] }
      s3 (some (TyBase.bool 902)) (some (TyBase.uint 901 UintKind.u8))
      (some (TyBase.uint 901 UintKind.u8))
      rfl rfl rfl

/-- C4: Resolve records the visitor's computed type against the node
identity exactly when it is non-null (a null result leaves the state,
and hence the node's table entry, exactly as the visitor left it); and
each of the three lookup failures of a call expression appends exactly
one diagnostic at the call's source location, leaves the table
untouched (so the call node stays unmapped), and returns the null
result as an ordinary non-fatal outcome. -/
theorem resolve_records_iff_nonnull (env : TCEnv) (isFinal : Bool) :
    (∀ (e : Expr) (s s1 : TCState) (t : TyBase),
      visitExpr env isFinal e s = Except.ok (some t, s1) →
      resolveExpr env e isFinal s =
        Except.ok (some t, insertType s1 e.mappings.hirid (some t)) ∧
      lookupAssoc (insertType s1 e.mappings.hirid (some t)).table e.mappings.hirid =
        some (some t)) ∧
    (∀ (e : Expr) (s s1 : TCState),
      visitExpr env isFinal e s = Except.ok (none, s1) →
      resolveExpr env e isFinal s = Except.ok (none, s1)) ∧
    (∀ (m : NodeMappings) (locus fnNodeId : Nat) (asStr : String) (s : TCState),
      env.resolvedNames fnNodeId = none →
      resolveExpr env (Expr.callExpr m locus fnNodeId asStr) isFinal s =
        Except.ok (none,
          addDiag s locus (("Failed to lookup reference for node: ") ++ asStr))) ∧
    (∀ (m : NodeMappings) (locus fnNodeId : Nat) (asStr : String) (s : TCState)
        (refNodeId : Nat),
      env.resolvedNames fnNodeId = some refNodeId →
      env.nodeToHir m.crateNum refNodeId = none →
      resolveExpr env (Expr.callExpr m locus fnNodeId asStr) isFinal s =
        Except.ok (none, addDiag s locus ("reverse lookup failure"))) ∧
    (∀ (m : NodeMappings) (locus fnNodeId : Nat) (asStr : String) (s : TCState)
        (refNodeId : Nat) (ref : HirId),
      env.resolvedNames fnNodeId = some refNodeId →
      env.nodeToHir m.crateNum refNodeId = some ref →
      lookupAssoc s.table ref = none →
      resolveExpr env (Expr.callExpr m locus fnNodeId asStr) isFinal s =
        Except.ok (none,
          addDiag s locus (("consider giving this a type: ") ++ asStr))) := by
  refine ⟨?_, ?_, ?_, ?_, ?_⟩
  · intro e s s1 t hv
    constructor
    · show recordResult e.mappings.hirid (visitExpr env isFinal e s) = _
      rw [hv]
      rfl
    · exact lookupAssoc_cons_self _ _ _
  · intro e s s1 hv
    show recordResult e.mappings.hirid (visitExpr env isFinal e s) = _
    rw [hv]
    rfl
  · intro m locus fnNodeId asStr s h1
    show recordResult m.hirid
      (visitExpr env isFinal (Expr.callExpr m locus fnNodeId asStr) s) = _
    simp only [visitExpr, h1]
    rfl
  · intro m locus fnNodeId asStr s refNodeId h1 h2
    show recordResult m.hirid
      (visitExpr env isFinal (Expr.callExpr m locus fnNodeId asStr) s) = _
    simp only [visitExpr, h1, h2]
    rfl
  · intro m locus fnNodeId asStr s refNodeId ref h1 h2 h3
    show recordResult m.hirid
      (visitExpr env isFinal (Expr.callExpr m locus fnNodeId asStr) s) = _
    simp only [visitExpr, h1, h2, h3]
    rfl

/-- C4 witness: a call whose callee reference is unresolved yields the
single diagnostic with an unchanged table and no abort; a resolvable
call records its non-null inferred type; a literal records its type. -/
theorem resolve_records_iff_nonnull_witness :
    let env : TCEnv :=
      { returnType := none,
        resolvedNames := fun n => if n = 1 then some 10 else none,
        definitions := fun _ => none,
        nodeToHir := fun _ n => if n = 10 then some 100 else none,
        builtins := fun _ => some (TyBase.int 901 IntKind.i32),
        locations := fun r => r,
        callGo := fun _ _ => some (TyBase.float 903 FloatKind.f64) }
    let s0 : TCState := { table := [], diags := [] }
    (resolveExpr env (Expr.callExpr { crateNum := 0, nodeid := 7, hirid := 8 } 80 2 ("f()"))
        false s0 =
      Except.ok (none,
        addDiag s0 80 (("Failed to lookup reference for node: ") ++ ("f()")))) ∧
    (resolveExpr env (Expr.callExpr { crateNum := 0, nodeid := 7, hirid := 8 } 80 1 ("f()"))
        false s0 =
      Except.ok (none,
        addDiag s0 80 (("consider giving this a type: ") ++ ("f()")))) ∧
    (resolveExpr env
        (Expr.literalExpr { crateNum := 0, nodeid := 9, hirid := 9 } 90
          LitType.int TypeHint.unknown) false s0 =
      Except.ok (some (TyBase.int 901 IntKind.i32),
        insertType s0 9 (some (TyBase.int 901 IntKind.i32))) ∧
      lookupAssoc (insertType s0 9 (some (TyBase.int 901 IntKind.i32))).table 9 =
        some (some (TyBase.int 901 IntKind.i32))) := by
  intro env s0
  refine ⟨(resolve_records_iff_nonnull env false).2.2.1 _ 80 2 ("f()") s0 rfl,
    (resolve_records_iff_nonnull env false).2.2.2.2 _ 80 1 ("f()") s0 10 100 rfl rfl rfl,
    (resolve_records_iff_nonnull env false).1 _ s0 s0 (TyBase.int 901 IntKind.i32) rfl⟩

/-- C5: in an array index expression the resolved index type must
combine with the 32-bit signed integer sentinel built on the index
node's identity, and a failing combine is a fatal assertion; if the
indexed sub-expression's computed type is not an Array, the outcome is
a fatal error reported at the array sub-expression's location; if it is
an Array, the expression's computed (and recorded) type is the array's
element type. -/
theorem array_index_element_typing (env : TCEnv) (m : NodeMappings)
    (locus : Nat) (arrayE indexE : Expr) (isFinal : Bool) :
    (∀ (s s1 : TCState) (ti : TyBase),
      resolveExpr env indexE false s = Except.ok (some ti, s1) →
      combine (TyBase.int indexE.mappings.hirid IntKind.i32) ti = none →
      resolveExpr env (Expr.arrayIndexExpr m locus arrayE indexE) isFinal s =
        Except.error Fatal.assertFail) ∧
    (∀ (s s1 s2 : TCState) (ti t0 ta : TyBase),
      resolveExpr env indexE false s = Except.ok (some ti, s1) →
      combine (TyBase.int indexE.mappings.hirid IntKind.i32) ti = some t0 →
      visitExpr env isFinal arrayE s1 = Except.ok (some ta, s2) →
      (∀ (r : HirId) (cap : Nat) (el : TyBase), ta ≠ TyBase.array r cap el) →
      resolveExpr env (Expr.arrayIndexExpr m locus arrayE indexE) isFinal s =
        Except.error (Fatal.fatalError arrayE.locusOf
          ("expected an ArrayType for index expression"))) ∧
    (∀ (s s1 s2 : TCState) (ti t0 : TyBase) (r : HirId) (cap : Nat) (el : TyBase),
      resolveExpr env indexE false s = Except.ok (some ti, s1) →
      combine (TyBase.int indexE.mappings.hirid IntKind.i32) ti = some t0 →
      visitExpr env isFinal arrayE s1 = Except.ok (some (TyBase.array r cap el), s2) →
      resolveExpr env (Expr.arrayIndexExpr m locus arrayE indexE) isFinal s =
        Except.ok (some el, insertType s2 m.hirid (some el))) := by
  refine ⟨?_, ?_, ?_⟩
  · intro s s1 ti h1 hc
    have e1 : recordResult indexE.mappings.hirid (visitExpr env false indexE s) =
        Except.ok (some ti, s1) := h1
    show recordResult m.hirid
      (visitExpr env isFinal (Expr.arrayIndexExpr m locus arrayE indexE) s) = _
    have hv : visitExpr env isFinal (Expr.arrayIndexExpr m locus arrayE indexE) s =
        Except.error Fatal.assertFail := by
      simp only [visitExpr]
      rw [e1]
      simp only [bindE, hc]
    rw [hv]
    rfl
  · intro s s1 s2 ti t0 ta h1 hc h2 hna
    have e1 : recordResult indexE.mappings.hirid (visitExpr env false indexE s) =
        Except.ok (some ti, s1) := h1
    show recordResult m.hirid
      (visitExpr env isFinal (Expr.arrayIndexExpr m locus arrayE indexE) s) = _
    have hv : visitExpr env isFinal (Expr.arrayIndexExpr m locus arrayE indexE) s =
        Except.error (Fatal.fatalError arrayE.locusOf
          ("expected an ArrayType for index expression")) := by
      simp only [visitExpr]
      rw [e1]
      simp only [bindE, hc]
      rw [h2]
      cases ta with
      | array r cap el => exact absurd rfl (hna r cap el)
      | error r => rfl
      | unit r => rfl
      | infer r => rfl
      | fnType r => rfl
      | structField r => rfl
      | param r => rfl
      | adt r => rfl
      | bool r => rfl
      | int r k => rfl
      | uint r k => rfl
      | float r k => rfl
    rw [hv]
    rfl
  · intro s s1 s2 ti t0 r cap el h1 hc h2
    have e1 : recordResult indexE.mappings.hirid (visitExpr env false indexE s) =
        Except.ok (some ti, s1) := h1
    show recordResult m.hirid
      (visitExpr env isFinal (Expr.arrayIndexExpr m locus arrayE indexE) s) = _
    have hv : visitExpr env isFinal (Expr.arrayIndexExpr m locus arrayE indexE) s =
        Except.ok (some el, s2) := by
      simp only [visitExpr]
      rw [e1]
      simp only [bindE, hc]
      rw [h2]
      simp only [bindE, extractElementTypeFromArray]
    rw [hv]
    rfl

/-- C5 witness: indexing an Array of f64 with capacity 4 by an
i32-typed literal index yields f64 and records it; indexing a bool
expression is the fatal error at the array sub-expression's location
(the bool literal stands in for the non-array indexed expression). -/
theorem array_index_element_typing_witness :
    let env : TCEnv :=
      { returnType := none,
        resolvedNames := fun n => if n = 1 then some 10 else none,
        definitions := fun n => if n = 10 then some 20 else none,
        nodeToHir := fun _ n => if n = 20 then some 100 else none,
        builtins := fun nm =>
          if nm = ("i32") then some (TyBase.int 901 IntKind.i32)
          else if nm = ("bool") then some (TyBase.bool 902) else none,
        locations := fun r => r,
        callGo := fun _ _ => none }
    let indexE : Expr :=
      Expr.literalExpr { crateNum := 0, nodeid := 2, hirid := 6 } 60
        LitType.int TypeHint.i32
    let arrayE : Expr :=
      Expr.identifierExpr { crateNum := 0, nodeid := 1, hirid := 5 } 50 ("a")
    let boolE : Expr :=
      Expr.literalExpr { crateNum := 0, nodeid := 3, hirid := 7 } 70
        LitType.boolLit TypeHint.unknown
    let arrTy : TyBase := TyBase.array 100 4 (TyBase.float 903 FloatKind.f64)
    let s0 : TCState := { table := [(100, some arrTy)], diags := [] }
    let s1 : TCState :=
      { table := [(6, some (TyBase.int 901 IntKind.i32)), (100, some arrTy)],
        diags := [] }
    (resolveExpr env
        (Expr.arrayIndexExpr { crateNum := 0, nodeid := 4, hirid := 8 } 80 arrayE indexE)
        false s0 =
      Except.ok (some (TyBase.float 903 FloatKind.f64),
        insertType s1 8 (some (TyBase.float 903 FloatKind.f64)))) ∧
    (resolveExpr env
        (Expr.arrayIndexExpr { crateNum := 0, nodeid := 4, hirid := 8 } 80 boolE indexE)
        false s0 =
      Except.error (Fatal.fatalError 70
        ("expected an ArrayType for index expression"))) := by
  intro env indexE arrayE boolE arrTy s0 s1
  constructor
  · exact (array_index_element_typing env _ 80 arrayE indexE false).2.2 s0 s1 s1
      (TyBase.int 901 IntKind.i32) (TyBase.int 6 IntKind.i32) 100 4
      (TyBase.float 903 FloatKind.f64) rfl rfl rfl
  · exact (array_index_element_typing env _ 80 boolE indexE false).2.1 s0 s1 s1
      (TyBase.int 901 IntKind.i32) (TyBase.int 6 IntKind.i32) (TyBase.bool 902)
      rfl rfl rfl (by intro r cap el h; cases h)

lemma leftFold_none_absorb (ts : List TyBase) :
    List.foldl (fun acc t => Option.bind acc (fun a => combine a t))
      (none : Option TyBase) ts = none := by
  induction ts with
  | nil => rfl
  | cons b rest ih => simpa using ih

lemma foldCombine_map_some (rest : List TyBase) :
    ∀ (t0 tE : TyBase), leftFoldCombine t0 rest = some tE →
      foldCombine (some t0) (rest.map some) = Except.ok (some tE) := by
  induction rest with
  | nil =>
      intro t0 tE h
      simp only [leftFoldCombine, List.foldl_nil] at h
      cases h
      rfl
  | cons b rbs ih =>
      intro t0 tE h
      simp only [leftFoldCombine, List.foldl_cons, Option.some_bind] at h
      cases hc : combine t0 b with
      | none =>
          rw [hc] at h
          rw [leftFold_none_absorb] at h
          cases h
      | some t1 =>
          rw [hc] at h
          show foldCombine (combine t0 b) (rbs.map some) = Except.ok (some tE)
          rw [hc]
          exact ih t1 tE h

/-- C6: for an array literal with an explicit, non-empty element list,
every element is resolved in listing order, the element type is the
left fold of combine over the element types, and the computed (and
recorded) type is Array over that folded element type with capacity
equal to the syntactic element count; the empty element list is an
unhandled precondition of the fold (an out-of-bounds access, modelled
as a crash). -/
theorem array_literal_fold_typing (env : TCEnv) (m : NodeMappings) (locus : Nat)
    (isFinal : Bool) :
    (∀ (es : ExprList) (s s1 : TCState) (t0 tE : TyBase) (rest : List TyBase),
      collectTypes env es s = Except.ok (some t0 :: rest.map some, s1) →
      leftFoldCombine t0 rest = some tE →
      resolveExpr env (Expr.arrayExpr m locus (ArrayElems.values es)) isFinal s =
        Except.ok (some (TyBase.array m.hirid es.numElements tE),
          insertType s1 m.hirid
            (some (TyBase.array m.hirid es.numElements tE)))) ∧
    (∀ (s : TCState),
      resolveExpr env (Expr.arrayExpr m locus (ArrayElems.values ExprList.nil))
        isFinal s = Except.error Fatal.crash) := by
  constructor
  · intro es s s1 t0 tE rest hcol hfold
    show recordResult m.hirid
      (visitExpr env isFinal (Expr.arrayExpr m locus (ArrayElems.values es)) s) = _
    have hv : visitExpr env isFinal (Expr.arrayExpr m locus (ArrayElems.values es)) s =
        Except.ok (some (TyBase.array m.hirid es.numElements tE), s1) := by
      show bindE (visitElems env (ArrayElems.values es) s) _ = _
      have he : visitElems env (ArrayElems.values es) s = Except.ok (some tE, s1) := by
        show bindE (collectTypes env es s) _ = _
        rw [hcol]
        simp only [bindE]
        rw [foldCombine_map_some rest t0 tE hfold]
      rw [he]
      rfl
    rw [hv]
    rfl
  · intro s
    show recordResult m.hirid
      (visitExpr env isFinal (Expr.arrayExpr m locus (ArrayElems.values ExprList.nil)) s) = _
    rfl

/-- C6 witness: the two-element literal of i32 literals resolves both
elements, folds their types to i32 and yields Array of i32 with
capacity 2 recorded against the node; the empty literal crashes. -/
theorem array_literal_fold_typing_witness :
    let env : TCEnv :=
      { returnType := none,
        resolvedNames := fun _ => none,
        definitions := fun _ => none,
        nodeToHir := fun _ _ => none,
        builtins := fun nm =>
          if nm = ("i32") then some (TyBase.int 901 IntKind.i32) else none,
        locations := fun r => r,
        callGo := fun _ _ => none }
    let e1 : Expr :=
      Expr.literalExpr { crateNum := 0, nodeid := 1, hirid := 11 } 10
        LitType.int TypeHint.unknown
    let e2 : Expr :=
      Expr.literalExpr { crateNum := 0, nodeid := 2, hirid := 12 } 20
        LitType.int TypeHint.i32
    let es : ExprList := ExprList.cons e1 (ExprList.cons e2 ExprList.nil)
    let s1 : TCState :=
      { table := [(12, some (TyBase.int 901 IntKind.i32)),
                  (11, some (TyBase.int 901 IntKind.i32))], diags := [] }
    (resolveExpr env
        (Expr.arrayExpr { crateNum := 0, nodeid := 3, hirid := 13 } 30
          (ArrayElems.values es)) false { table := [], diags := [] } =
      Except.ok (some (TyBase.array 13 2 (TyBase.int 901 IntKind.i32)),
        insertType s1 13 (some (TyBase.array 13 2 (TyBase.int 901 IntKind.i32))))) ∧
    (resolveExpr env
        (Expr.arrayExpr { crateNum := 0, nodeid := 3, hirid := 13 } 30
          (ArrayElems.values ExprList.nil)) false { table := [], diags := [] } =
      Except.error Fatal.crash) := by
  intro env e1 e2 es s1
  refine ⟨(array_literal_fold_typing env _ 30 false).1 es { table := [], diags := [] }
    s1 (TyBase.int 901 IntKind.i32) (TyBase.int 901 IntKind.i32)
    [TyBase.int 901 IntKind.i32] rfl rfl,
    (array_literal_fold_typing env _ 30 false).2 { table := [], diags := [] }⟩

lemma lookupAssoc_append {β : Type} (W t : List (Nat × β)) (id : Nat) :
    lookupAssoc (W ++ t) id =
      match lookupAssoc W id with
      | some v => some v
      | none => lookupAssoc t id := by
  induction W with
  | nil => rfl
  | cons p rest ih =>
      obtain ⟨k, v⟩ := p
      by_cases hk : k = id
      · simp [lookupAssoc, hk]
      · simp [lookupAssoc, hk, ih]

lemma lookupAssoc_keys_none {β : Type} (W : List (Nat × β)) (ws : List Nat)
    (id : Nat) (hsub : ∀ p, p ∈ W → p.1 ∈ ws) (hid : id ∉ ws) :
    lookupAssoc W id = none := by
  induction W with
  | nil => rfl
  | cons p rest ih =>
      obtain ⟨k, v⟩ := p
      have hk : k ≠ id := by
        intro he
        exact hid (he ▸ hsub (k, v) (List.mem_cons_self _ _))
      simp only [lookupAssoc, if_neg hk]
      exact ih (fun p hp => hsub p (List.mem_cons_of_mem _ hp))

lemma agree_of_sub {R R2 : List HirId} {s1 s2 : TCState} (h : Agree R s1 s2)
    (hsub : ∀ id, id ∈ R2 → id ∈ R) : Agree R2 s1 s2 :=
  fun id hid => h id (hsub id hid)

lemma agree_left {R1 R2 : List HirId} {s1 s2 : TCState}
    (h : Agree (R1 ++ R2) s1 s2) : Agree R1 s1 s2 :=
  agree_of_sub h (fun id hid => List.mem_append.mpr (Or.inl hid))

lemma agree_right {R1 R2 : List HirId} {s1 s2 : TCState}
    (h : Agree (R1 ++ R2) s1 s2) : Agree R2 s1 s2 :=
  agree_of_sub h (fun id hid => List.mem_append.mpr (Or.inr hid))

lemma agree_extend {R : List HirId} {s1 s2 t1 t2 : TCState}
    {W : List (HirId × Option TyBase)} (h : Agree R s1 s2)
    (h1 : t1.table = W ++ s1.table) (h2 : t2.table = W ++ s2.table) :
    Agree R t1 t2 := by
  intro id hid
  rw [h1, h2, lookupAssoc_append, lookupAssoc_append]
  cases hw : lookupAssoc W id <;> simp [h id hid]

lemma corr_error {α : Type} (ws : List HirId) (s1 s2 : TCState) (f : Fatal) :
    Corr (α := α) ws s1 s2 (Except.error f) (Except.error f) :=
  Or.inl ⟨f, rfl, rfl⟩

lemma corr_ok_entries {α : Type} (ws : List HirId) (s1 s2 : TCState) (a : α)
    (W : List (HirId × Option TyBase)) (t1 t2 : TCState)
    (h1 : t1.table = W ++ s1.table) (h2 : t2.table = W ++ s2.table)
    (hk : keysSub W ws) :
    Corr ws s1 s2 (Except.ok (a, t1)) (Except.ok (a, t2)) :=
  Or.inr ⟨a, W, t1, t2, rfl, rfl, h1, h2, hk⟩

lemma corr_ok {α : Type} (ws : List HirId) (s1 s2 : TCState) (a : α) :
    Corr ws s1 s2 (Except.ok (a, s1)) (Except.ok (a, s2)) :=
  corr_ok_entries ws s1 s2 a [] s1 s2 (List.nil_append _).symm
    (List.nil_append _).symm (fun p hp => absurd hp (List.not_mem_nil p))

lemma corr_mono {α : Type} {ws ws2 : List HirId} {s1 s2 : TCState}
    {r1 r2 : Except Fatal (α × TCState)}
    (hsub : ∀ id, id ∈ ws → id ∈ ws2) (h : Corr ws s1 s2 r1 r2) :
    Corr ws2 s1 s2 r1 r2 := by
  rcases h with ⟨f, h1, h2⟩ | ⟨a, W, t1, t2, h1, h2, ht1, ht2, hkeys⟩
  · exact Or.inl ⟨f, h1, h2⟩
  · exact Or.inr ⟨a, W, t1, t2, h1, h2, ht1, ht2,
      fun p hp => hsub p.1 (hkeys p hp)⟩

lemma corr_bind {α β : Type} (ws2 : List HirId) {ws1 : List HirId} {s1 s2 : TCState}
    {r1 r2 : Except Fatal (α × TCState)}
    {k1 k2 : α → TCState → Except Fatal (β × TCState)}
    (h : Corr ws1 s1 s2 r1 r2)
    (hk : ∀ (a : α) (t1 t2 : TCState) (W : List (HirId × Option TyBase)),
      t1.table = W ++ s1.table → t2.table = W ++ s2.table → keysSub W ws1 →
      Corr ws2 t1 t2 (k1 a t1) (k2 a t2)) :
    Corr (ws1 ++ ws2) s1 s2 (bindE r1 k1) (bindE r2 k2) := by
  rcases h with ⟨f, h1, h2⟩ | ⟨a, W, t1, t2, h1, h2, ht1, ht2, hkeys⟩
  · subst h1
    subst h2
    exact corr_error _ _ _ f
  · subst h1
    subst h2
    have hcont := hk a t1 t2 W ht1 ht2 hkeys
    rcases hcont with ⟨f, hk1, hk2⟩ | ⟨b, W2, u1, u2, hk1, hk2, hu1, hu2, hkeys2⟩
    · show Corr _ s1 s2 (k1 a t1) (k2 a t2)
      rw [hk1, hk2]
      exact corr_error _ _ _ f
    · show Corr _ s1 s2 (k1 a t1) (k2 a t2)
      rw [hk1, hk2]
      refine corr_ok_entries _ _ _ b (W2 ++ W) u1 u2 ?_ ?_ ?_
      · rw [hu1, ht1, List.append_assoc]
      · rw [hu2, ht2, List.append_assoc]
      · intro p hp
        rcases List.mem_append.mp hp with hp2 | hp2
        · exact List.mem_append.mpr (Or.inr (hkeys2 p hp2))
        · exact List.mem_append.mpr (Or.inl (hkeys p hp2))

lemma writes_mem_self (e : Expr) : e.mappings.hirid ∈ e.writes := by
  cases e <;> simp [Expr.writes, Expr.mappings]

lemma corr_record {ws : List HirId} {s1 s2 : TCState}
    {r1 r2 : Except Fatal (Option TyBase × TCState)} (hirid : HirId)
    (hmem : hirid ∈ ws) (h : Corr ws s1 s2 r1 r2) :
    Corr ws s1 s2 (recordResult hirid r1) (recordResult hirid r2) := by
  rcases h with ⟨f, h1, h2⟩ | ⟨a, W, t1, t2, h1, h2, ht1, ht2, hkeys⟩
  · subst h1
    subst h2
    exact corr_error _ _ _ f
  · subst h1
    subst h2
    cases a with
    | none => exact corr_ok_entries _ _ _ none W t1 t2 ht1 ht2 hkeys
    | some t =>
        refine corr_ok_entries _ _ _ (some t) ((hirid, some t) :: W)
          (insertType t1 hirid (some t)) (insertType t2 hirid (some t)) ?_ ?_ ?_
        · show (hirid, some t) :: t1.table = _
          rw [ht1]
          rfl
        · show (hirid, some t) :: t2.table = _
          rw [ht2]
          rfl
        · intro p hp
          rcases List.mem_cons.mp hp with hp2 | hp2
          · rw [hp2]
            exact hmem
          · exact hkeys p hp2


lemma corr_ok_diag (ws : List HirId) (s1 s2 : TCState) (l : Nat) (msg : String) :
    Corr ws s1 s2 (Except.ok ((none : Option TyBase), addDiag s1 l msg))
      (Except.ok (none, addDiag s2 l msg)) :=
  corr_ok_entries ws s1 s2 none [] (addDiag s1 l msg) (addDiag s2 l msg) rfl rfl
    (fun p hp => absurd hp (List.not_mem_nil p))

mutual
theorem detExpr (env : TCEnv) (f : Bool) (e : Expr) :
    ∀ (s1 s2 : TCState), Agree (e.reads env) s1 s2 →
      Corr e.writes s1 s2 (visitExpr env f e s1) (visitExpr env f e s2) := by
  cases e with
  | returnExpr m locus inner =>
      intro s1 s2 hagr
      simp only [Expr.reads] at hagr
      simp only [visitExpr, Expr.writes]
      cases hret : env.returnType with
      | none => exact corr_error _ _ _ Fatal.assertFail
      | some ret =>
          refine corr_mono ?_ (corr_bind [] (corr_record inner.mappings.hirid
            (writes_mem_self inner) (detExpr env false inner s1 s2 hagr))
            (fun a t1 t2 W ht1 ht2 hkeys => ?_))
          · intro x hx
            simp only [List.mem_append, List.mem_cons, List.not_mem_nil,
              or_false] at hx ⊢
            tauto
          · cases a with
            | none => exact corr_error [] t1 t2 Fatal.crash
            | some t => exact corr_ok [] t1 t2 (combine ret t)
  | callExpr m locus fnNodeId asStr =>
      intro s1 s2 hagr
      simp only [Expr.reads] at hagr
      simp only [Expr.writes]
      cases h1 : env.resolvedNames fnNodeId with
      | none =>
          have hv1 : visitExpr env f (Expr.callExpr m locus fnNodeId asStr) s1 =
              Except.ok (none, addDiag s1 locus
                (("Failed to lookup reference for node: ") ++ asStr)) := by
            simp only [visitExpr, h1]
          have hv2 : visitExpr env f (Expr.callExpr m locus fnNodeId asStr) s2 =
              Except.ok (none, addDiag s2 locus
                (("Failed to lookup reference for node: ") ++ asStr)) := by
            simp only [visitExpr, h1]
          rw [hv1, hv2]
          exact corr_ok_diag _ s1 s2 locus _
      | some refNodeId =>
          cases h2 : env.nodeToHir m.crateNum refNodeId with
          | none =>
              have hv1 : visitExpr env f (Expr.callExpr m locus fnNodeId asStr) s1 =
                  Except.ok (none, addDiag s1 locus ("reverse lookup failure")) := by
                simp only [visitExpr, h1, h2]
              have hv2 : visitExpr env f (Expr.callExpr m locus fnNodeId asStr) s2 =
                  Except.ok (none, addDiag s2 locus ("reverse lookup failure")) := by
                simp only [visitExpr, h1, h2]
              rw [hv1, hv2]
              exact corr_ok_diag _ s1 s2 locus _
          | some ref =>
              have hmem : ref ∈ callRead env m fnNodeId := by
                simp [callRead, h1, h2]
              have heq : lookupAssoc s1.table ref = lookupAssoc s2.table ref :=
                hagr ref hmem
              cases hl : lookupAssoc s1.table ref with
              | none =>
                  have hl2 : lookupAssoc s2.table ref = none := heq.symm.trans hl
                  have hv1 : visitExpr env f (Expr.callExpr m locus fnNodeId asStr) s1 =
                      Except.ok (none, addDiag s1 locus
                        (("consider giving this a type: ") ++ asStr)) := by
                    simp only [visitExpr, h1, h2, hl]
                  have hv2 : visitExpr env f (Expr.callExpr m locus fnNodeId asStr) s2 =
                      Except.ok (none, addDiag s2 locus
                        (("consider giving this a type: ") ++ asStr)) := by
                    simp only [visitExpr, h1, h2, hl2]
                  rw [hv1, hv2]
                  exact corr_ok_diag _ s1 s2 locus _
              | some v =>
                  have hl2 : lookupAssoc s2.table ref = some v := heq.symm.trans hl
                  cases v with
                  | none =>
                      have hv1 : visitExpr env f (Expr.callExpr m locus fnNodeId asStr) s1 =
                          Except.error Fatal.crash := by
                        simp only [visitExpr, h1, h2, hl]
                      have hv2 : visitExpr env f (Expr.callExpr m locus fnNodeId asStr) s2 =
                          Except.error Fatal.crash := by
                        simp only [visitExpr, h1, h2, hl2]
                      rw [hv1, hv2]
                      exact corr_error _ s1 s2 Fatal.crash
                  | some ty =>
                      have hv1 : visitExpr env f (Expr.callExpr m locus fnNodeId asStr) s1 =
                          Except.ok (env.callGo ty m.hirid, s1) := by
                        simp only [visitExpr, h1, h2, hl]
                      have hv2 : visitExpr env f (Expr.callExpr m locus fnNodeId asStr) s2 =
                          Except.ok (env.callGo ty m.hirid, s2) := by
                        simp only [visitExpr, h1, h2, hl2]
                      rw [hv1, hv2]
                      exact corr_ok _ s1 s2 (env.callGo ty m.hirid)
  | assignmentExpr m locus lhs rhs =>
      intro s1 s2 hagr
      simp only [Expr.reads] at hagr
      simp only [visitExpr, Expr.writes]
      refine corr_mono ?_ (corr_bind (rhs.writes ++ lhs.writes)
        (corr_record lhs.mappings.hirid
          (writes_mem_self lhs) (detExpr env false lhs s1 s2 (agree_left hagr)))
        (fun a t1 t2 W ht1 ht2 hkeys => ?_))
      · intro x hx
        simp only [List.mem_append, List.mem_cons, List.not_mem_nil,
          or_false] at hx ⊢
        tauto
      · refine corr_bind lhs.writes
          (corr_record rhs.mappings.hirid (writes_mem_self rhs)
            (detExpr env false rhs t1 t2
              (agree_extend (agree_right hagr) ht1 ht2)))
          (fun b u1 u2 W2 hu1 hu2 hkeys2 => ?_)
        cases a with
        | none => exact corr_error lhs.writes u1 u2 Fatal.crash
        | some l =>
            cases b with
            | none => exact corr_error lhs.writes u1 u2 Fatal.crash
            | some r =>
                refine corr_ok_entries lhs.writes u1 u2 (combine l r)
                  [(lhs.mappings.hirid, combine l r)] _ _ rfl rfl ?_
                intro p hp
                rcases List.mem_cons.mp hp with hp2 | hp2
                · rw [hp2]
                  exact writes_mem_self lhs
                · exact absurd hp2 (List.not_mem_nil p)
  | identifierExpr m locus asStr =>
      intro s1 s2 hagr
      simp only [Expr.reads] at hagr
      simp only [Expr.writes]
      cases h1 : env.resolvedNames m.nodeid with
      | none =>
          have hv1 : visitExpr env f (Expr.identifierExpr m locus asStr) s1 =
              Except.ok (none, addDiag s1 locus
                (("Failed to lookup reference for node: ") ++ asStr)) := by
            simp only [visitExpr, h1]
          have hv2 : visitExpr env f (Expr.identifierExpr m locus asStr) s2 =
              Except.ok (none, addDiag s2 locus
                (("Failed to lookup reference for node: ") ++ asStr)) := by
            simp only [visitExpr, h1]
          rw [hv1, hv2]
          exact corr_ok_diag _ s1 s2 locus _
      | some refNodeId =>
          cases h2 : env.definitions refNodeId with
          | none =>
              have hv1 : visitExpr env f (Expr.identifierExpr m locus asStr) s1 =
                  Except.ok (none, addDiag s1 locus ("unknown reference")) := by
                simp only [visitExpr, h1, h2]
              have hv2 : visitExpr env f (Expr.identifierExpr m locus asStr) s2 =
                  Except.ok (none, addDiag s2 locus ("unknown reference")) := by
                simp only [visitExpr, h1, h2]
              rw [hv1, hv2]
              exact corr_ok_diag _ s1 s2 locus _
          | some defParent =>
              cases h3 : env.nodeToHir m.crateNum defParent with
              | none =>
                  have hv1 : visitExpr env f (Expr.identifierExpr m locus asStr) s1 =
                      Except.ok (none, addDiag s1 locus ("reverse lookup failure")) := by
                    simp only [visitExpr, h1, h2, h3]
                  have hv2 : visitExpr env f (Expr.identifierExpr m locus asStr) s2 =
                      Except.ok (none, addDiag s2 locus ("reverse lookup failure")) := by
                    simp only [visitExpr, h1, h2, h3]
                  rw [hv1, hv2]
                  exact corr_ok_diag _ s1 s2 locus _
              | some ref =>
                  have hmem : ref ∈ identRead env m := by
                    simp [identRead, h1, h2, h3]
                  have heq : lookupAssoc s1.table ref = lookupAssoc s2.table ref :=
                    hagr ref hmem
                  cases hl : lookupAssoc s1.table ref with
                  | none =>
                      have hl2 : lookupAssoc s2.table ref = none := heq.symm.trans hl
                      have hv1 : visitExpr env f (Expr.identifierExpr m locus asStr) s1 =
                          Except.ok (none, addDiag s1 (env.locations ref)
                            (("consider giving this a type: ") ++ asStr)) := by
                        simp only [visitExpr, h1, h2, h3, hl]
                      have hv2 : visitExpr env f (Expr.identifierExpr m locus asStr) s2 =
                          Except.ok (none, addDiag s2 (env.locations ref)
                            (("consider giving this a type: ") ++ asStr)) := by
                        simp only [visitExpr, h1, h2, h3, hl2]
                      rw [hv1, hv2]
                      exact corr_ok_diag _ s1 s2 (env.locations ref) _
                  | some v =>
                      have hl2 : lookupAssoc s2.table ref = some v := heq.symm.trans hl
                      have hv1 : visitExpr env f (Expr.identifierExpr m locus asStr) s1 =
                          Except.ok (v, s1) := by
                        simp only [visitExpr, h1, h2, h3, hl]
                      have hv2 : visitExpr env f (Expr.identifierExpr m locus asStr) s2 =
                          Except.ok (v, s2) := by
                        simp only [visitExpr, h1, h2, h3, hl2]
                      rw [hv1, hv2]
                      exact corr_ok _ s1 s2 v
  | literalExpr m locus lit hint =>
      intro s1 s2 _
      simp only [visitExpr, Expr.writes]
      cases lit with
      | int =>
          cases hb : env.builtins (intLitName hint) with
          | none => exact corr_error _ _ _ Fatal.assertFail
          | some t => exact corr_ok _ s1 s2 (some t)
      | float =>
          cases hb : env.builtins (floatLitName hint) with
          | none => exact corr_error _ _ _ Fatal.assertFail
          | some t => exact corr_ok _ s1 s2 (some t)
      | boolLit =>
          cases hb : env.builtins ("bool") with
          | none => exact corr_error _ _ _ Fatal.assertFail
          | some t => exact corr_ok _ s1 s2 (some t)
      | other => exact corr_error _ _ _ Fatal.assertFail
  | arithmeticOrLogicalExpr m locus lhs rhs =>
      intro s1 s2 hagr
      simp only [Expr.reads] at hagr
      simp only [visitExpr, Expr.writes]
      refine corr_mono ?_ (corr_bind (rhs.writes ++ [])
        (corr_record lhs.mappings.hirid
          (writes_mem_self lhs) (detExpr env false lhs s1 s2 (agree_left hagr)))
        (fun a t1 t2 W ht1 ht2 hkeys => ?_))
      · intro x hx
        simp only [List.mem_append, List.mem_cons, List.not_mem_nil,
          or_false] at hx ⊢
        tauto
      · refine corr_bind []
          (corr_record rhs.mappings.hirid (writes_mem_self rhs)
            (detExpr env false rhs t1 t2
              (agree_extend (agree_right hagr) ht1 ht2)))
          (fun b u1 u2 W2 hu1 hu2 hkeys2 => ?_)
        cases a with
        | none => exact corr_error [] u1 u2 Fatal.crash
        | some l =>
            cases b with
            | none => exact corr_error [] u1 u2 Fatal.crash
            | some r => exact corr_ok [] u1 u2 (combine l r)
  | comparisonExpr m locus lhs rhs =>
      intro s1 s2 hagr
      simp only [Expr.reads] at hagr
      simp only [visitExpr, Expr.writes]
      refine corr_mono ?_ (corr_bind (rhs.writes ++ [])
        (corr_record lhs.mappings.hirid
          (writes_mem_self lhs) (detExpr env false lhs s1 s2 (agree_left hagr)))
        (fun a t1 t2 W ht1 ht2 hkeys => ?_))
      · intro x hx
        simp only [List.mem_append, List.mem_cons, List.not_mem_nil,
          or_false] at hx ⊢
        tauto
      · refine corr_bind []
          (corr_record rhs.mappings.hirid (writes_mem_self rhs)
            (detExpr env false rhs t1 t2
              (agree_extend (agree_right hagr) ht1 ht2)))
          (fun b u1 u2 W2 hu1 hu2 hkeys2 => ?_)
        cases a with
        | none => exact corr_error [] u1 u2 Fatal.crash
        | some l =>
            cases b with
            | none => exact corr_error [] u1 u2 Fatal.crash
            | some r => exact corr_ok [] u1 u2 (combine l r)
  | lazyBooleanExpr m locus lhs rhs =>
      intro s1 s2 hagr
      simp only [Expr.reads] at hagr
      simp only [visitExpr, Expr.writes]
      refine corr_mono ?_ (corr_bind (rhs.writes ++ [])
        (corr_record lhs.mappings.hirid
          (writes_mem_self lhs) (detExpr env false lhs s1 s2 (agree_left hagr)))
        (fun a t1 t2 W ht1 ht2 hkeys => ?_))
      · intro x hx
        simp only [List.mem_append, List.mem_cons, List.not_mem_nil,
          or_false] at hx ⊢
        tauto
      · refine corr_bind []
          (corr_record rhs.mappings.hirid (writes_mem_self rhs)
            (detExpr env false rhs t1 t2
              (agree_extend (agree_right hagr) ht1 ht2)))
          (fun b u1 u2 W2 hu1 hu2 hkeys2 => ?_)
        cases a with
        | none => exact corr_error [] u1 u2 Fatal.crash
        | some l =>
            cases b with
            | none => exact corr_error [] u1 u2 Fatal.crash
            | some r => exact corr_ok [] u1 u2 (combine l r)
  | ifExpr m locus cond blk =>
      intro s1 s2 hagr
      simp only [Expr.reads] at hagr
      simp only [visitExpr, Expr.writes]
      refine corr_mono ?_ (corr_bind (blk.writes ++ [])
        (corr_record cond.mappings.hirid
          (writes_mem_self cond) (detExpr env false cond s1 s2 (agree_left hagr)))
        (fun a t1 t2 W ht1 ht2 hkeys => ?_))
      · intro x hx
        simp only [List.mem_append, List.mem_cons, List.not_mem_nil,
          or_false] at hx ⊢
        tauto
      · refine corr_bind []
          (corr_record blk.mappings.hirid (writes_mem_self blk)
            (detExpr env false blk t1 t2
              (agree_extend (agree_right hagr) ht1 ht2)))
          (fun b u1 u2 W2 hu1 hu2 hkeys2 => ?_)
        exact corr_ok [] u1 u2 (some (TyBase.unit m.hirid))
  | ifExprConseqElse m locus cond thenBlk elseBlk =>
      intro s1 s2 hagr
      simp only [Expr.reads] at hagr
      simp only [visitExpr, Expr.writes]
      refine corr_mono ?_
        (corr_bind (thenBlk.writes ++ (elseBlk.writes ++ []))
          (corr_record cond.mappings.hirid (writes_mem_self cond)
            (detExpr env f cond s1 s2 (agree_left (agree_left hagr))))
          (fun a t1 t2 W ht1 ht2 hkeys => ?_))
      · intro x hx
        simp only [List.mem_append, List.mem_cons, List.not_mem_nil,
          or_false] at hx ⊢
        tauto
      · refine corr_bind (elseBlk.writes ++ [])
          (corr_record thenBlk.mappings.hirid (writes_mem_self thenBlk)
            (detExpr env false thenBlk t1 t2
              (agree_extend (agree_right (agree_left hagr)) ht1 ht2)))
          (fun b u1 u2 W2 hu1 hu2 hkeys2 => ?_)
        refine corr_bind []
          (corr_record elseBlk.mappings.hirid (writes_mem_self elseBlk)
            (detExpr env false elseBlk u1 u2
              (agree_extend (agree_extend (agree_right hagr) ht1 ht2) hu1 hu2)))
          (fun c v1 v2 W3 hv1 hv2 hkeys3 => ?_)
        cases f with
        | false => exact corr_ok [] v1 v2 (some (TyBase.unit m.hirid))
        | true =>
            cases hret : env.returnType with
            | none => exact corr_error [] v1 v2 Fatal.crash
            | some ret =>
                cases b with
                | none => exact corr_error [] v1 v2 Fatal.crash
                | some tT =>
                    cases hcc : combine ret tT with
                    | none =>
                        simp only [hcc]
                        exact corr_error [] v1 v2 Fatal.crash
                    | some c1 =>
                        simp only [hcc]
                        cases c with
                        | none => exact corr_error [] v1 v2 Fatal.crash
                        | some tE => exact corr_ok [] v1 v2 (combine c1 tE)
  | ifExprConseqIf m locus cond blk conseq =>
      intro s1 s2 hagr
      simp only [Expr.reads] at hagr
      simp only [visitExpr, Expr.writes]
      refine corr_mono ?_
        (corr_bind (blk.writes ++ (conseq.writes ++ []))
          (corr_record cond.mappings.hirid (writes_mem_self cond)
            (detExpr env false cond s1 s2 (agree_left (agree_left hagr))))
          (fun a t1 t2 W ht1 ht2 hkeys => ?_))
      · intro x hx
        simp only [List.mem_append, List.mem_cons, List.not_mem_nil,
          or_false] at hx ⊢
        tauto
      · refine corr_bind (conseq.writes ++ [])
          (corr_record blk.mappings.hirid (writes_mem_self blk)
            (detExpr env false blk t1 t2
              (agree_extend (agree_right (agree_left hagr)) ht1 ht2)))
          (fun b u1 u2 W2 hu1 hu2 hkeys2 => ?_)
        refine corr_bind []
          (corr_record conseq.mappings.hirid (writes_mem_self conseq)
            (detExpr env false conseq u1 u2
              (agree_extend (agree_extend (agree_right hagr) ht1 ht2) hu1 hu2)))
          (fun c v1 v2 W3 hv1 hv2 hkeys3 => ?_)
        exact corr_ok [] v1 v2 (some (TyBase.unit m.hirid))
  | arrayIndexExpr m locus arrayE indexE =>
      intro s1 s2 hagr
      simp only [Expr.reads] at hagr
      simp only [visitExpr, Expr.writes]
      refine corr_mono ?_ (corr_bind (arrayE.writes ++ [])
        (corr_record indexE.mappings.hirid (writes_mem_self indexE)
          (detExpr env false indexE s1 s2 (agree_left hagr)))
        (fun a t1 t2 W ht1 ht2 hkeys => ?_))
      · intro x hx
        simp only [List.mem_append, List.mem_cons, List.not_mem_nil,
          or_false] at hx ⊢
        tauto
      · cases a with
        | none => exact corr_error (arrayE.writes ++ []) t1 t2 Fatal.crash
        | some it =>
            cases hc : combine (TyBase.int indexE.mappings.hirid IntKind.i32) it with
            | none =>
                simp only [hc]
                exact corr_error (arrayE.writes ++ []) t1 t2 Fatal.assertFail
            | some t0 =>
                simp only [hc]
                refine corr_bind []
                  (detExpr env f arrayE t1 t2
                    (agree_extend (agree_right hagr) ht1 ht2))
                  (fun b u1 u2 W2 hu1 hu2 hkeys2 => ?_)
                cases b with
                | none => exact corr_error [] u1 u2 Fatal.crash
                | some ta =>
                    cases ta <;>
                      first
                        | exact corr_ok [] u1 u2 _
                        | exact corr_error [] u1 u2 _
  | arrayExpr m locus elems =>
      intro s1 s2 hagr
      simp only [Expr.reads] at hagr
      simp only [visitExpr, Expr.writes]
      refine corr_mono ?_ (corr_bind [] (detElems env elems s1 s2 hagr)
        (fun a t1 t2 W ht1 ht2 hkeys => ?_))
      · intro x hx
        simp only [List.mem_append, List.mem_cons, List.not_mem_nil,
          or_false] at hx ⊢
        tauto
      · cases a with
        | none => exact corr_error [] t1 t2 Fatal.assertFail
        | some t =>
            exact corr_ok [] t1 t2 (some (TyBase.array m.hirid elems.numElements t))

theorem detElems (env : TCEnv) (el : ArrayElems) :
    ∀ (s1 s2 : TCState), Agree (el.reads env) s1 s2 →
      Corr el.writes s1 s2 (visitElems env el s1) (visitElems env el s2) := by
  cases el with
  | values es =>
      intro s1 s2 hagr
      simp only [ArrayElems.reads] at hagr
      simp only [visitElems, ArrayElems.writes]
      refine corr_mono ?_ (corr_bind [] (detList env es s1 s2 hagr)
        (fun a t1 t2 W ht1 ht2 hkeys => ?_))
      · intro x hx
        simp only [List.mem_append, List.not_mem_nil, or_false] at hx ⊢
        tauto
      · cases a with
        | nil => exact corr_error [] t1 t2 Fatal.crash
        | cons t0 rest =>
            cases hf : foldCombine t0 rest with
            | error f2 =>
                simp only [hf]
                exact corr_error [] t1 t2 f2
            | ok acc =>
                simp only [hf]
                exact corr_ok [] t1 t2 acc
  | copied toCopy numCopies =>
      intro s1 s2 hagr
      simp only [ArrayElems.reads] at hagr
      simp only [visitElems, ArrayElems.writes]
      exact corr_record toCopy.mappings.hirid (writes_mem_self toCopy)
        (detExpr env false toCopy s1 s2 hagr)

theorem detList (env : TCEnv) (es : ExprList) :
    ∀ (s1 s2 : TCState), Agree (es.reads env) s1 s2 →
      Corr es.writes s1 s2 (collectTypes env es s1) (collectTypes env es s2) := by
  cases es with
  | nil =>
      intro s1 s2 _
      simp only [collectTypes, ExprList.writes]
      exact corr_ok [] s1 s2 ([] : List (Option TyBase))
  | cons e tl =>
      intro s1 s2 hagr
      simp only [ExprList.reads] at hagr
      simp only [collectTypes, ExprList.writes]
      refine corr_bind tl.writes
        (corr_record e.mappings.hirid (writes_mem_self e)
          (detExpr env false e s1 s2 (agree_left hagr)))
        (fun a t1 t2 W ht1 ht2 hkeys => ?_)
      refine corr_mono ?_ (corr_bind []
        (detList env tl t1 t2 (agree_extend (agree_right hagr) ht1 ht2))
        (fun b u1 u2 W2 hu1 hu2 hkeys2 => ?_))
      · intro x hx
        simp only [List.mem_append, List.not_mem_nil, or_false] at hx ⊢
        exact hx
      · exact corr_ok [] u1 u2 (a :: b)
end

/-- C3: under the IR well-formedness condition that the declaration
references an expression reads from the type table are disjoint from
the node identities its resolution writes (node identities are
process-unique and reference sites resolve to declarations, never to
expression nodes of the tree being resolved), resolving the same
expression node a second time succeeds, computes the same type, and
leaves every table entry observationally unchanged - in particular the
type recorded against the node's identity after the second call equals
the one recorded after the first, and no previously recorded type is
overwritten with a conflicting one. -/
theorem resolve_idempotent (env : TCEnv) (e : Expr) (f : Bool) (s : TCState)
    (iv : Option TyBase) (s1 : TCState)
    (hdisj : ∀ id, id ∈ e.reads env → id ∉ e.writes)
    (hrun : resolveExpr env e f s = Except.ok (iv, s1)) :
    ∃ s2, resolveExpr env e f s1 = Except.ok (iv, s2) ∧
      ∀ id, lookupAssoc s2.table id = lookupAssoc s1.table id := by
  have hrun2 : recordResult e.mappings.hirid (visitExpr env f e s) =
      Except.ok (iv, s1) := hrun
  have hself : Corr e.writes s s
      (recordResult e.mappings.hirid (visitExpr env f e s))
      (recordResult e.mappings.hirid (visitExpr env f e s)) :=
    corr_record e.mappings.hirid (writes_mem_self e)
      (detExpr env f e s s (fun id _ => rfl))
  rcases hself with ⟨f2, hx, _⟩ | ⟨a, W, t1, t2, hx1, hx2, ht1, ht2, hkeys⟩
  · rw [hrun2] at hx
    cases hx
  · rw [hrun2] at hx1
    simp only [Except.ok.injEq, Prod.mk.injEq] at hx1
    obtain ⟨ha, ht⟩ := hx1
    subst ha
    subst ht
    have hagree : Agree (e.reads env) s s1 := by
      intro id hid
      rw [ht1, lookupAssoc_append]
      rw [lookupAssoc_keys_none W e.writes id hkeys (hdisj id hid)]
    have hcorr : Corr e.writes s s1
        (recordResult e.mappings.hirid (visitExpr env f e s))
        (recordResult e.mappings.hirid (visitExpr env f e s1)) :=
      corr_record e.mappings.hirid (writes_mem_self e)
        (detExpr env f e s s1 hagree)
    rcases hcorr with ⟨f3, hy, _⟩ | ⟨a2, W2, u1, u2, hy1, hy2, hu1, hu2, hkeys2⟩
    · rw [hrun2] at hy
      cases hy
    · rw [hrun2] at hy1
      simp only [Except.ok.injEq, Prod.mk.injEq] at hy1
      obtain ⟨ha2, hu⟩ := hy1
      subst ha2
      subst hu
      refine ⟨u2, hy2, ?_⟩
      intro id
      rw [hu2, lookupAssoc_append]
      cases hw : lookupAssoc W2 id with
      | none => rfl
      | some v =>
          rw [hu1, lookupAssoc_append, hw]

/-- C3 witness: resolving an identifier expression (reading declaration
100, writing node 5) twice from a seeded table returns the same type
and leaves the recorded table observationally identical. -/
theorem resolve_idempotent_witness :
    let env : TCEnv :=
      { returnType := none,
        resolvedNames := fun n => if n = 1 then some 10 else none,
        definitions := fun n => if n = 10 then some 20 else none,
        nodeToHir := fun _ n => if n = 20 then some 100 else none,
        builtins := fun _ => none,
        locations := fun r => r,
        callGo := fun _ _ => none }
    let e : Expr :=
      Expr.identifierExpr { crateNum := 0, nodeid := 1, hirid := 5 } 50 ("x")
    let s1 : TCState :=
      { table := [(5, some (TyBase.int 100 IntKind.i32)),
                  (100, some (TyBase.int 100 IntKind.i32))], diags := [] }
    ∃ s2, resolveExpr env e false s1 =
        Except.ok (some (TyBase.int 100 IntKind.i32), s2) ∧
      ∀ id, lookupAssoc s2.table id = lookupAssoc s1.table id := by
  intro env e s1
  refine resolve_idempotent env e false
    { table := [(100, some (TyBase.int 100 IntKind.i32))], diags := [] }
    (some (TyBase.int 100 IntKind.i32)) s1 ?_ rfl
  intro id hid
  rw [show Expr.reads env e = [100] from rfl] at hid
  rw [show Expr.writes e = [5] from rfl]
  simp only [List.mem_singleton] at hid
  subst hid
  decide
